import Mathlib

/-!
Verification of the MISMO XML anonymizer (src/anonymizer.py, src/main.py).

The anonymizer parses an XML document into an element tree, runs seven
in-place passes over all elements (names, SSN, birth date and age,
addresses, creditor names, contact info, account identifiers), each
replacing recognized attribute values with freshly drawn synthetic data,
and serializes the result.

The shallow embedding below models:
  * the element tree (`XNode`) with tag, attribute list and children;
  * Python's global `random` module as an explicit stream of raw draws
    threaded through every pass in evaluation order (`RState`);
  * `random.randint lo hi` (inclusive bounds) and `random.choice`;
  * Python's `str` on natural numbers (`decimalStr`, via a structurally
    recursive digit function bridged to Mathlib's `Nat.digits`);
  * `datetime.now() - timedelta(days=k)` followed by
    `strftime('%Y-%m-%d')`: the current instant is a day ordinal `now`
    (days since 1970-01-01) and the civil (year, month, day) of an
    ordinal is computed by the standard Gregorian conversion
    (`civilFromDays`), matching Python's proleptic Gregorian calendar;
  * each pass as a pre-order traversal (`mapTree`) applying a per-node
    step function, exactly as `root.iter()` visits nodes;
  * the engine entry point `anonymize_xml` with the XML parser and
    serializer as external collaborators (parameters), and its
    try/except wrapping into a `ValueError` which the API layer
    (src/main.py) maps to HTTP 400, while any other exception maps
    to HTTP 500.
-/

/-- State of the pseudo-random source: an arbitrary stream of raw
natural-number draws together with the current position.  Each primitive
random call consumes exactly one raw draw, so draws are made in program
evaluation order, as with Python's global `random` module. -/
structure RState where
  stream : Nat → Nat
  pos : Nat

/-- Model of `random.randint(lo, hi)` (both bounds inclusive): the next raw
draw reduced into the interval.  Any value in `[lo, hi]` is reachable by a
suitable stream, and every result lies in `[lo, hi]` when `lo ≤ hi`. -/
def randint (lo hi : Nat) (s : RState) : Nat × RState :=
  (lo + s.stream s.pos % (hi + 1 - lo), ⟨s.stream, s.pos + 1⟩)

/-- Model of `random.choice(l)` on a non-empty list: the next raw draw
picks an index.  Every element is reachable by a suitable stream. -/
def choice (l : List String) (s : RState) : String × RState :=
  (l.getD (s.stream s.pos % l.length) "", ⟨s.stream, s.pos + 1⟩)

/-- An element's attributes: an ordered list of (name, value) pairs, as
lxml exposes `elem.attrib` (insertion-ordered mapping with unique keys). -/
abbrev Attrs := List (String × String)

/-- `k in elem.attrib` -/
def hasAttr (a : Attrs) (k : String) : Bool := a.any (fun p => p.1 = k)

/-- `elem.attrib.get(k)` -/
def getAttr (a : Attrs) (k : String) : Option String :=
  (a.find? (fun p => p.1 = k)).map Prod.snd

/-- `elem.attrib[k] = v` on a present key: replaces the value in place,
leaving the key list unchanged.  (Every assignment in src/anonymizer.py is
guarded by a presence check, so the append-if-absent case never arises.) -/
def setAttr (a : Attrs) (k v : String) : Attrs :=
  a.map (fun p => if p.1 = k then (k, v) else p)

/-- The attribute names of an element, in order. -/
def keysOf (a : Attrs) : List String := a.map Prod.fst

/-- XML element tree: tag, attributes, children (document order). -/
structure XNode where
  tag : String
  attrs : List (String × String)
  children : List XNode

mutual

/-- `root.iter()`: pre-order traversal, the element itself first, then the
descendants of each child in document order. -/
def preorder : XNode → List XNode
  | ⟨t, a, cs⟩ => ⟨t, a, cs⟩ :: preorderF cs

def preorderF : List XNode → List XNode
  | [] => []
  | c :: cs => preorder c ++ preorderF cs

end

/-- The (tag, attributes) data of a node, ignoring children. -/
def nodeData (n : XNode) : String × Attrs := (n.tag, n.attrs)

/-- The (tag, attributes) pairs of all nodes of a tree in pre-order. -/
def dataList (t : XNode) : List (String × Attrs) := (preorder t).map nodeData

/-- Per-node step of one pass: from the element's tag and attributes and
the random state, the updated attributes and random state. -/
abbrev StepFn := String → Attrs → RState → Attrs × RState

mutual

/-- One anonymization pass: apply the per-node step to every element in
pre-order (`for elem in root.iter()`), threading the random state in
visit order.  Tags and tree structure are untouched by construction,
exactly as in the source, which only ever assigns into `elem.attrib`. -/
def mapTree (f : StepFn) : XNode → RState → XNode × RState
  | ⟨t, a, cs⟩, s =>
    let p := f t a s
    let q := mapForest f cs p.2
    (⟨t, p.1, q.1⟩, q.2)

def mapForest (f : StepFn) : List XNode → RState → List XNode × RState
  | [], s => ([], s)
  | c :: cs, s =>
    let p := mapTree f c s
    let q := mapForest f cs p.2
    (p.1 :: q.1, q.2)

end

/-- Structurally recursive decimal digit list (little-endian), defined
with fuel so that it evaluates by kernel reduction; proven equal to
`Nat.digits 10` below. -/
def natDigitsAux : Nat → Nat → List Nat
  | 0, _ => []
  | _ + 1, 0 => []
  | fuel + 1, n + 1 => ((n + 1) % 10) :: natDigitsAux fuel ((n + 1) / 10)

/-- Little-endian decimal digits of `n`. -/
def natDigits (n : Nat) : List Nat := natDigitsAux n n

/-- Python's `str` on a non-negative integer: its decimal numeral. -/
def decimalStr (n : Nat) : String :=
  if n = 0 then "0" else ⟨((natDigits n).map (fun d => Char.ofNat (48 + d))).reverse⟩

/-- Two-digit zero-padded numeral, as `strftime`'s `%m` and `%d` produce. -/
def pad2 (n : Nat) : String :=
  if n < 10 then "0" ++ decimalStr n else decimalStr n

/-- Day-of-era component of the Gregorian conversion (era base
0000-03-01, input measured in days since 1970-01-01). -/
def cfdDoe (z : Nat) : Nat := (z + 719468) % 146097

/-- Era component of the Gregorian conversion. -/
def cfdEra (z : Nat) : Nat := (z + 719468) / 146097

/-- Year-of-era component of the Gregorian conversion. -/
def cfdYoe (z : Nat) : Nat :=
  (cfdDoe z - cfdDoe z / 1460 + cfdDoe z / 36524 - cfdDoe z / 146096) / 365

/-- Day-of-year (March-based) component of the Gregorian conversion. -/
def cfdDoy (z : Nat) : Nat := cfdDoe z - (365 * cfdYoe z + cfdYoe z / 4 - cfdYoe z / 100)

/-- March-based month index of the Gregorian conversion. -/
def cfdMp (z : Nat) : Nat := (5 * cfdDoy z + 2) / 153

/-- Day-of-month of the civil date of day ordinal `z`. -/
def cfdDay (z : Nat) : Nat := cfdDoy z - (153 * cfdMp z + 2) / 5 + 1

/-- Month of the civil date of day ordinal `z`. -/
def cfdMonth (z : Nat) : Nat := if cfdMp z < 10 then cfdMp z + 3 else cfdMp z - 9

/-- Year of the civil date of day ordinal `z`. -/
def cfdYear (z : Nat) : Nat :=
  (if cfdMonth z ≤ 2 then 1 else 0) + cfdYoe z + cfdEra z * 400

/-- Civil (year, month, day) of the day ordinal `z` (days since
1970-01-01) in the proleptic Gregorian calendar, the calendar Python's
`datetime` uses. -/
def civilFromDays (z : Nat) : Nat × Nat × Nat := (cfdYear z, cfdMonth z, cfdDay z)

/-- `strftime('%Y-%m-%d')` of the civil date of day ordinal `z`. -/
def formatDate (z : Nat) : String :=
  decimalStr (cfdYear z) ++ "-" ++ pad2 (cfdMonth z) ++ "-" ++ pad2 (cfdDay z)

/-- Fake first-name pool (src/anonymizer.py line 22). -/
def firstNames : List String :=
  ["John", "Jane", "Michael", "Sarah", "Robert", "Emily", "David", "Lisa"]

/-- Fake last-name pool (src/anonymizer.py line 23). -/
def lastNames : List String :=
  ["Smith", "Johnson", "Williams", "Brown", "Jones", "Garcia", "Miller"]

/-- Middle-initial pool (src/anonymizer.py line 83). -/
def middleInitials : List String := ["A", "B", "C", "D", "E"]

/-- Fake organization-name pool (src/anonymizer.py lines 124-128). -/
def creditorNames : List String :=
  ["ABC BANK", "XYZ CREDIT UNION", "GENERIC MORTGAGE CO", "SAMPLE FINANCIAL",
   "ANONYMOUS LENDER", "TEST BANK", "DEMO CREDIT CORP", "PLACEHOLDER FINANCE"]

/-- `if attr in elem.attrib: elem.attrib[attr] = v` with no random draw. -/
def setIfPresent (a : Attrs) (k v : String) : Attrs :=
  if hasAttr a k then setAttr a k v else a

/-- `if attr in elem.attrib: elem.attrib[attr] = <drawn value>`: the
generator runs (consuming random draws) only when the attribute is
present, exactly as the guarded bodies in the source. -/
def drawSet (k : String) (gen : RState → String × RState) (a : Attrs) (s : RState) :
    Attrs × RState :=
  if hasAttr a k then
    let g := gen s
    (setAttr a k g.1, g.2)
  else (a, s)

/-- Per-node step of `_anonymize_names` (src/anonymizer.py lines 76-92):
if `_FirstName` or `_LastName` is present, draw a first name, a last
name and a middle initial (in that order, as lines 81-83 evaluate), then
overwrite each of `_FirstName`, `_MiddleName`, `_LastName`,
`_UnparsedName` that is present, `_UnparsedName` getting the three draws
joined by single spaces. -/
def anonNamesStep : StepFn := fun _tag a s =>
  if hasAttr a "_FirstName" || hasAttr a "_LastName" then
    let pf := choice firstNames s
    let pl := choice lastNames pf.2
    let pm := choice middleInitials pl.2
    let a1 := setIfPresent a "_FirstName" pf.1
    let a2 := setIfPresent a1 "_MiddleName" pm.1
    let a3 := setIfPresent a2 "_LastName" pl.1
    let a4 := setIfPresent a3 "_UnparsedName" (pf.1 ++ " " ++ pm.1 ++ " " ++ pl.1)
    (a4, pm.2)
  else (a, s)

/-- Per-node step of `_anonymize_ssn` (src/anonymizer.py lines 94-100):
if `_SSN` is present, set it to the concatenation of `str(randint(100,
999))`, `str(randint(10, 99))`, `str(randint(1000, 9999))`. -/
def anonSsnStep : StepFn := fun _tag a s =>
  drawSet "_SSN"
    (fun s0 =>
      let p1 := randint 100 999 s0
      let p2 := randint 10 99 p1.2
      let p3 := randint 1000 9999 p2.2
      (decimalStr p1.1 ++ decimalStr p2.1 ++ decimalStr p3.1, p3.2))
    a s

/-- Per-node step of `_anonymize_dob` (src/anonymizer.py lines 102-113):
if `_BirthDate` is present, draw `years_ago` in [30, 50] and an extra
offset in [0, 365] and set it to `(now - (years_ago * 365 + extra))`
formatted `%Y-%m-%d`; independently, if `_AgeYears` is present, set it
to `str(randint(30, 50))`.  `now` is the current day ordinal. -/
def anonDobStep (now : Nat) : StepFn := fun _tag a s =>
  let p1 :=
    drawSet "_BirthDate"
      (fun s0 =>
        let py := randint 30 50 s0
        let pe := randint 0 365 py.2
        (formatDate (now - (py.1 * 365 + pe.1)), pe.2))
      a s
  drawSet "_AgeYears" (fun s0 => let pg := randint 30 50 s0; (decimalStr pg.1, pg.2))
    p1.1 p1.2

/-- Per-node step of `_anonymize_addresses` (src/anonymizer.py lines
115-120), iterating the generator table in its insertion order
`_StreetAddress`, `_City`, `_State`, `_PostalCode` (lines 32-37). -/
def anonAddressesStep : StepFn := fun _tag a s =>
  let p1 :=
    drawSet "_StreetAddress"
      (fun s0 => let pn := randint 100 9999 s0; (decimalStr pn.1 ++ " Main Street", pn.2))
      a s
  let a2 := setIfPresent p1.1 "_City" "Anytown"
  let a3 := setIfPresent a2 "_State" "CA"
  let a4 := setIfPresent a3 "_PostalCode" "90001"
  (a4, p1.2)

/-- One of the two guarded bodies of `_anonymize_creditors`: if the tag
equals the given sentinel and `_Name` is present, redraw `_Name` from
the organization-name pool. -/
def creditorBranch (sentinel tag : String) (pr : Attrs × RState) : Attrs × RState :=
  if tag = sentinel && hasAttr pr.1 "_Name" then
    let pc := choice creditorNames pr.2
    (setAttr pr.1 "_Name" pc.1, pc.2)
  else pr

/-- Per-node step of `_anonymize_creditors` (src/anonymizer.py lines
122-137): on a `_CREDITOR` element with `_Name`, and likewise on a
`REQUESTING_PARTY` element with `_Name` (checked on the attributes as
they stand after the first branch, as the source's second `if` does),
set `_Name` to a draw from the organization-name pool. -/
def anonCreditorsStep : StepFn := fun tag a s =>
  creditorBranch "REQUESTING_PARTY" tag (creditorBranch "_CREDITOR" tag (a, s))

/-- Per-node step of `_anonymize_contact_info` (src/anonymizer.py lines
139-148): if `_Value` and `_Type` are both present and `_Type` is
`Phone`, set `_Value` to `"555" + str(randint(1000000, 9999999))`; if
`_Type` is `Email` or `Fax`, the elif branch produces the same digit
string shape. -/
def anonContactStep : StepFn := fun _tag a s =>
  if hasAttr a "_Value" && hasAttr a "_Type" then
    if getAttr a "_Type" = some "Phone" then
      let pn := randint 1000000 9999999 s
      (setAttr a "_Value" ("555" ++ decimalStr pn.1), pn.2)
    else if getAttr a "_Type" = some "Email" || getAttr a "_Type" = some "Fax" then
      let pn := randint 1000000 9999999 s
      (setAttr a "_Value" ("555" ++ decimalStr pn.1), pn.2)
    else (a, s)
  else (a, s)

/-- Per-node step of `_anonymize_account_identifiers` (src/anonymizer.py
lines 150-163): `_AccountIdentifier` to `"ACC"` + 9 digits,
`InternalAccountIdentifier` to `"INT"` + 4 digits, `LenderCaseIdentifier`
to a bare 7-digit number, `_RequestedByName` to `"user"` + randint(1,
999), each only when present. -/
def anonAccountStep : StepFn := fun _tag a s =>
  let p1 :=
    drawSet "_AccountIdentifier"
      (fun s0 => let pn := randint 100000000 999999999 s0; ("ACC" ++ decimalStr pn.1, pn.2))
      a s
  let p2 :=
    drawSet "InternalAccountIdentifier"
      (fun s0 => let pn := randint 1000 9999 s0; ("INT" ++ decimalStr pn.1, pn.2))
      p1.1 p1.2
  let p3 :=
    drawSet "LenderCaseIdentifier"
      (fun s0 => let pn := randint 1000000 9999999 s0; (decimalStr pn.1, pn.2))
      p2.1 p2.2
  drawSet "_RequestedByName"
    (fun s0 => let pn := randint 1 999 s0; ("user" ++ decimalStr pn.1, pn.2))
    p3.1 p3.2

/-- The seven passes of `anonymize_xml`, as data so that pass orderings
can be quantified over. -/
inductive Pass
  | names
  | ssn
  | dob
  | addresses
  | creditors
  | contact
  | accounts
deriving DecidableEq, Fintype, Repr

/-- The per-node step of each pass (`now` is the current day ordinal,
used only by the birth-date pass). -/
def stepOf (now : Nat) : Pass → StepFn
  | .names => anonNamesStep
  | .ssn => anonSsnStep
  | .dob => anonDobStep now
  | .addresses => anonAddressesStep
  | .creditors => anonCreditorsStep
  | .contact => anonContactStep
  | .accounts => anonAccountStep

/-- Run one pass over the whole tree. -/
def applyPass (now : Nat) (p : Pass) (t : XNode) (s : RState) : XNode × RState :=
  mapTree (stepOf now p) t s

/-- Run a sequence of passes, threading the random state. -/
def applyPasses (now : Nat) : List Pass → XNode → RState → XNode × RState
  | [], t, s => (t, s)
  | p :: ps, t, s =>
    let q := applyPass now p t s
    applyPasses now ps q.1 q.2

/-- The pass sequence exactly as `anonymize_xml` runs it
(src/anonymizer.py lines 55-61). -/
def passOrder : List Pass :=
  [.names, .ssn, .dob, .addresses, .creditors, .contact, .accounts]

/-- The full anonymization of a parsed tree: all seven passes in source
order. -/
def anonymizeTree (now : Nat) (t : XNode) (s : RState) : XNode × RState :=
  applyPasses now passOrder t s

/-- The error taxonomy of the surrounding system: `anonymize_xml` raises
`ValueError` (validation kind, mapped to HTTP 400 by src/main.py line
106-108) and anything else is the unexpected kind (mapped to HTTP 500 by
lines 109-111). -/
inductive AppError
  | validation (msg : String)
  | unexpected (msg : String)
deriving DecidableEq, Repr

/-- `MISMOAnonymizer.anonymize_xml` (src/anonymizer.py lines 39-74) with
the XML collaborator abstracted: `parsed` is the outcome of
`etree.fromstring` (recovery parsing) and `serializer` stands for
`etree.tostring(..., pretty_print=True, xml_declaration=True)`.  On a
parse failure the collaborator's exception message is wrapped into a
single `ValueError` (line 74); otherwise all seven passes run and the
serialized tree is returned. -/
def anonymizeXml (now : Nat) (serializer : XNode → String)
    (parsed : Except String XNode) (s : RState) : Except AppError String :=
  match parsed with
  | .error e => .error (.validation ("Error parsing or anonymizing XML: " ++ e))
  | .ok root => .ok (serializer (anonymizeTree now root s).1)

/-- The HTTP status src/main.py (lines 106-111) assigns to each error
kind. -/
def httpStatusOf : AppError → Nat
  | .validation _ => 400
  | .unexpected _ => 500

/-- Attribute names whose values some rule of the engine can replace
(the union of all passes' write sets). -/
def recognizedAttrs : List String :=
  ["_FirstName", "_MiddleName", "_LastName", "_UnparsedName", "_SSN",
   "_BirthDate", "_AgeYears", "_StreetAddress", "_City", "_State",
   "_PostalCode", "_Value", "_AccountIdentifier", "InternalAccountIdentifier",
   "LenderCaseIdentifier", "_RequestedByName"]

/-- The static write set of each pass: every attribute name the pass can
ever assign to. -/
def writeAttrsOf : Pass → List String
  | .names => ["_FirstName", "_MiddleName", "_LastName", "_UnparsedName"]
  | .ssn => ["_SSN"]
  | .dob => ["_BirthDate", "_AgeYears"]
  | .addresses => ["_StreetAddress", "_City", "_State", "_PostalCode"]
  | .creditors => ["_Name"]
  | .contact => ["_Value"]
  | .accounts =>
    ["_AccountIdentifier", "InternalAccountIdentifier", "LenderCaseIdentifier",
     "_RequestedByName"]

/-- The attribute names a pass replaces on one node, read off the node's
tag and attributes exactly as the pass's guards read them. -/
def writesOf (p : Pass) (tag : String) (a : Attrs) : List String :=
  match p with
  | .names =>
    if hasAttr a "_FirstName" || hasAttr a "_LastName" then
      (if hasAttr a "_FirstName" then ["_FirstName"] else []) ++
      (if hasAttr a "_MiddleName" then ["_MiddleName"] else []) ++
      (if hasAttr a "_LastName" then ["_LastName"] else []) ++
      (if hasAttr a "_UnparsedName" then ["_UnparsedName"] else [])
    else []
  | .ssn => if hasAttr a "_SSN" then ["_SSN"] else []
  | .dob =>
    (if hasAttr a "_BirthDate" then ["_BirthDate"] else []) ++
    (if hasAttr a "_AgeYears" then ["_AgeYears"] else [])
  | .addresses =>
    (if hasAttr a "_StreetAddress" then ["_StreetAddress"] else []) ++
    (if hasAttr a "_City" then ["_City"] else []) ++
    (if hasAttr a "_State" then ["_State"] else []) ++
    (if hasAttr a "_PostalCode" then ["_PostalCode"] else [])
  | .creditors =>
    (if tag = "_CREDITOR" && hasAttr a "_Name" then ["_Name"] else []) ++
    (if tag = "REQUESTING_PARTY" && hasAttr a "_Name" then ["_Name"] else [])
  | .contact =>
    if hasAttr a "_Value" && hasAttr a "_Type" &&
        (getAttr a "_Type" = some "Phone" || getAttr a "_Type" = some "Email" ||
         getAttr a "_Type" = some "Fax") then
      ["_Value"]
    else []
  | .accounts =>
    (if hasAttr a "_AccountIdentifier" then ["_AccountIdentifier"] else []) ++
    (if hasAttr a "InternalAccountIdentifier" then ["InternalAccountIdentifier"] else []) ++
    (if hasAttr a "LenderCaseIdentifier" then ["LenderCaseIdentifier"] else []) ++
    (if hasAttr a "_RequestedByName" then ["_RequestedByName"] else [])

/-- The (node index, attribute name) pairs a pass replaces on a tree,
node indices taken in pre-order. -/
def nodeWrites (p : Pass) (t : XNode) : List (Nat × String) :=
  ((preorder t).map (fun n => writesOf p n.tag n.attrs)).enum.flatMap
    (fun q => q.2.map (fun k => (q.1, k)))

/-- The (node index, attribute name) pairs replaced while running a
sequence of passes, each pass reading the tree it actually receives. -/
def writtenPairs (now : Nat) : List Pass → XNode → RState → List (Nat × String)
  | [], _, _ => []
  | p :: ps, t, s =>
    nodeWrites p t ++
      writtenPairs now ps (applyPass now p t s).1 (applyPass now p t s).2

/-- Relation composition. -/
def relComp {α : Type} (r q : α → α → Prop) : α → α → Prop :=
  fun x z => ∃ y, r x y ∧ q y z

/-- How one pass relates a node's (tag, attributes) before and after: the
tag is unchanged and the attributes are the step's output for some random
state. -/
def stepRelD (now : Nat) (p : Pass) : String × Attrs → String × Attrs → Prop :=
  fun x y => y.1 = x.1 ∧ ∃ s, y.2 = (stepOf now p x.1 x.2 s).1

/-- How a sequence of passes relates a node's (tag, attributes) before
and after: the composition of the per-pass relations. -/
def chainRel (now : Nat) : List Pass → (String × Attrs → String × Attrs → Prop)
  | [] => Eq
  | p :: ps => relComp (stepRelD now p) (chainRel now ps)

/-- Every attribute name some rule can assign, `_Name` included. -/
def anyWriteAttrs : List String := recognizedAttrs ++ ["_Name"]

/-- A node (given as its (tag, attributes) data) that no pass can touch:
it lacks every recognized attribute and is not a `_CREDITOR` or
`REQUESTING_PARTY` element carrying `_Name`. -/
def untouchedCond (x : String × Attrs) : Bool :=
  recognizedAttrs.all (fun k => !hasAttr x.2 k) &&
    !((x.1 = "_CREDITOR" || x.1 = "REQUESTING_PARTY") && hasAttr x.2 "_Name")

/-- A non-empty string all of whose characters are decimal digits. -/
def isDigitString (s : String) : Bool :=
  !s.isEmpty && s.data.all Char.isDigit

/-- Default (tag, attributes) pair for out-of-range list indexing. -/
def defaultData : String × Attrs := ("", [])

/-! ## Basic lemmas: random primitives and attribute operations -/

theorem randint_mem {lo hi : Nat} (h : lo ≤ hi) (s : RState) :
    lo ≤ (randint lo hi s).1 ∧ (randint lo hi s).1 ≤ hi := by
  unfold randint
  have : s.stream s.pos % (hi + 1 - lo) < hi + 1 - lo := Nat.mod_lt _ (by omega)
  omega

theorem choice_mem {l : List String} (h : l ≠ []) (s : RState) : (choice l s).1 ∈ l := by
  unfold choice
  have hlt : s.stream s.pos % l.length < l.length :=
    Nat.mod_lt _ (List.length_pos.mpr h)
  rw [List.getD_eq_getElem l _ hlt]
  exact List.getElem_mem hlt

theorem keysOf_setAttr (a : Attrs) (k v : String) : keysOf (setAttr a k v) = keysOf a := by
  induction a with
  | nil => rfl
  | cons p rest ih =>
    simp only [setAttr, keysOf, List.map_cons] at *
    by_cases hp : p.1 = k
    · simp [hp, ih]
    · simp only [if_neg hp]
      simpa using ih

theorem hasAttr_eq_keys (a : Attrs) (k : String) :
    hasAttr a k = (keysOf a).any (fun x => x = k) := by
  induction a with
  | nil => rfl
  | cons p rest ih => simp only [hasAttr, keysOf, List.any_cons, List.map_cons] at *; rw [ih]

theorem hasAttr_congr {a b : Attrs} (h : keysOf b = keysOf a) (k : String) :
    hasAttr b k = hasAttr a k := by
  rw [hasAttr_eq_keys, hasAttr_eq_keys, h]

theorem hasAttr_setAttr (a : Attrs) (k v k' : String) :
    hasAttr (setAttr a k v) k' = hasAttr a k' :=
  hasAttr_congr (keysOf_setAttr a k v) k'

theorem getAttr_setAttr_ne (a : Attrs) {k k' : String} (v : String) (h : k' ≠ k) :
    getAttr (setAttr a k v) k' = getAttr a k' := by
  induction a with
  | nil => rfl
  | cons p rest ih =>
    simp only [setAttr, getAttr, List.map_cons, List.find?_cons] at *
    by_cases hp : p.1 = k
    · have h1 : ¬(k = k') := fun hh => h hh.symm
      have h2 : ¬(p.1 = k') := by rw [hp]; exact fun hh => h hh.symm
      simp only [if_pos hp, h1, h2, decide_eq_false, Bool.false_eq_true, if_false]
      exact ih
    · simp only [if_neg hp]
      by_cases hq : p.1 = k'
      · simp [hq]
      · simp only [hq, decide_eq_false, Bool.false_eq_true, if_false]
        exact ih

theorem getAttr_setAttr_self (a : Attrs) {k : String} (v : String) (h : hasAttr a k = true) :
    getAttr (setAttr a k v) k = some v := by
  induction a with
  | nil => simp [hasAttr] at h
  | cons p rest ih =>
    simp only [hasAttr, setAttr, getAttr, List.any_cons, List.map_cons, List.find?_cons] at *
    by_cases hp : p.1 = k
    · simp [hp]
    · simp only [if_neg hp, hp, decide_eq_false, Bool.false_eq_true, if_false,
        Bool.false_or] at *
      exact ih h

theorem hasAttr_iff_getAttr (a : Attrs) (k : String) :
    hasAttr a k = true ↔ ∃ v, getAttr a k = some v := by
  induction a with
  | nil => simp [hasAttr, getAttr]
  | cons p rest ih =>
    simp only [hasAttr, getAttr, List.any_cons, List.find?_cons] at *
    by_cases hp : p.1 = k
    · simp [hp]
    · simp only [hp, decide_eq_false, Bool.false_eq_true, if_false, Bool.false_or]
      simpa using ih

theorem keysOf_setIfPresent (a : Attrs) (k v : String) :
    keysOf (setIfPresent a k v) = keysOf a := by
  unfold setIfPresent
  split
  · exact keysOf_setAttr a k v
  · rfl

theorem getAttr_setIfPresent_ne (a : Attrs) {k k' : String} (v : String) (h : k' ≠ k) :
    getAttr (setIfPresent a k v) k' = getAttr a k' := by
  unfold setIfPresent
  split
  · exact getAttr_setAttr_ne a v h
  · rfl

theorem getAttr_setIfPresent_self (a : Attrs) {k : String} (v : String)
    (h : hasAttr a k = true) : getAttr (setIfPresent a k v) k = some v := by
  unfold setIfPresent
  rw [if_pos h]
  exact getAttr_setAttr_self a v h

theorem setIfPresent_of_absent (a : Attrs) {k : String} (v : String)
    (h : hasAttr a k = false) : setIfPresent a k v = a := by
  unfold setIfPresent
  simp [h]

theorem hasAttr_setIfPresent (a : Attrs) (k v k' : String) :
    hasAttr (setIfPresent a k v) k' = hasAttr a k' :=
  hasAttr_congr (keysOf_setIfPresent a k v) k'

theorem keysOf_drawSet (k : String) (gen : RState → String × RState) (a : Attrs) (s : RState) :
    keysOf (drawSet k gen a s).1 = keysOf a := by
  unfold drawSet
  split
  · exact keysOf_setAttr a k _
  · rfl

theorem getAttr_drawSet_ne (k : String) (gen : RState → String × RState) (a : Attrs)
    (s : RState) {k' : String} (h : k' ≠ k) :
    getAttr (drawSet k gen a s).1 k' = getAttr a k' := by
  unfold drawSet
  split
  · exact getAttr_setAttr_ne a _ h
  · rfl

theorem drawSet_of_absent (k : String) (gen : RState → String × RState) (a : Attrs)
    (s : RState) (h : hasAttr a k = false) : drawSet k gen a s = (a, s) := by
  unfold drawSet
  simp [h]

theorem getAttr_drawSet_self (k : String) (gen : RState → String × RState) (a : Attrs)
    (s : RState) (h : hasAttr a k = true) :
    getAttr (drawSet k gen a s).1 k = some (gen s).1 := by
  unfold drawSet
  rw [if_pos h]
  exact getAttr_setAttr_self a _ h

theorem hasAttr_drawSet (k : String) (gen : RState → String × RState) (a : Attrs)
    (s : RState) (k' : String) : hasAttr (drawSet k gen a s).1 k' = hasAttr a k' :=
  hasAttr_congr (keysOf_drawSet k gen a s) k'

/-! ## Decimal numerals -/

theorem natDigitsAux_eq_digits :
    ∀ (fuel n : Nat), n ≤ fuel → natDigitsAux fuel n = Nat.digits 10 n
  | 0, 0, _ => by simp [natDigitsAux]
  | fuel + 1, 0, _ => by simp [natDigitsAux]
  | fuel + 1, n + 1, h => by
    rw [natDigitsAux, natDigitsAux_eq_digits fuel ((n + 1) / 10) (by omega),
      Nat.digits_def' (by norm_num : 1 < 10) (Nat.succ_pos n)]

theorem natDigits_eq (n : Nat) : natDigits n = Nat.digits 10 n :=
  natDigitsAux_eq_digits n n le_rfl

theorem decimalStr_length {n : Nat} (hn : n ≠ 0) :
    (decimalStr n).length = Nat.log 10 n + 1 := by
  rw [decimalStr, if_neg hn]
  show (((natDigits n).map _).reverse).length = _
  rw [List.length_reverse, List.length_map, natDigits_eq,
    Nat.digits_len 10 n (by norm_num) hn]

theorem decimalStr_length_of_range {n k : Nat} (h1 : 10 ^ k ≤ n) (h2 : n < 10 ^ (k + 1)) :
    (decimalStr n).length = k + 1 := by
  have hn : n ≠ 0 := by
    have : 0 < 10 ^ k := Nat.pos_pow_of_pos k (by norm_num)
    omega
  rw [decimalStr_length hn, Nat.log_eq_of_pow_le_of_lt_pow h1 h2]

theorem decimalStr_all_digits (n : Nat) : ∀ c ∈ (decimalStr n).data, c.isDigit = true := by
  intro c hc
  rw [decimalStr] at hc
  split at hc
  · rw [show ("0" : String).data = ['0'] from rfl, List.mem_singleton] at hc
    subst hc
    decide
  · simp only [List.mem_reverse, List.mem_map] at hc
    obtain ⟨d, hd, rfl⟩ := hc
    rw [natDigits_eq] at hd
    have hlt : d < 10 := Nat.digits_lt_base (by norm_num) hd
    interval_cases d <;> decide

theorem decimalStr_ne_empty (n : Nat) : (decimalStr n).isEmpty = false := by
  by_cases hn : n = 0
  · subst hn; decide
  · rcases hb : (decimalStr n).isEmpty with _ | _
    · rfl
    · exfalso
      have hempty : decimalStr n = "" := (String.isEmpty_iff (decimalStr n)).mp hb
      have h1 : (decimalStr n).length = Nat.log 10 n + 1 := decimalStr_length hn
      rw [hempty] at h1
      exact absurd h1.symm (Nat.succ_ne_zero _)

theorem isDigitString_decimalStr (n : Nat) : isDigitString (decimalStr n) = true := by
  unfold isDigitString
  rw [decimalStr_ne_empty]
  simp only [Bool.not_false, Bool.true_and, List.all_eq_true]
  intro c hc
  exact decimalStr_all_digits n c hc

theorem isDigitString_append {s t : String} (hs : isDigitString s = true)
    (ht : isDigitString t = true) : isDigitString (s ++ t) = true := by
  unfold isDigitString at *
  simp only [Bool.and_eq_true, Bool.not_eq_true', List.all_eq_true] at *
  constructor
  · rcases hs with ⟨hs1, _⟩
    rcases hb : (s ++ t).isEmpty with _ | _
    · rfl
    · exfalso
      have hh : s ++ t = "" := (String.isEmpty_iff (s ++ t)).mp hb
      have hlen := congrArg String.length hh
      rw [String.length_append] at hlen
      have hz : s.length = 0 := by
        have : ("" : String).length = 0 := rfl
        omega
      have hs0 : s = "" := by
        cases s with
        | mk d =>
          cases d with
          | nil => rfl
          | cons c cs => simp [String.length] at hz
      rw [hs0] at hs1
      exact absurd hs1 (by decide)
  · intro c hc
    rw [String.data_append] at hc
    rcases List.mem_append.mp hc with h | h
    · exact hs.2 c h
    · exact ht.2 c h

/-! ## Gregorian conversion bounds -/

theorem cfdMp_le (z : Nat) : cfdMp z ≤ 11 := by
  unfold cfdMp cfdDoy cfdYoe cfdDoe
  omega

theorem cfdMonth_bounds (z : Nat) : 1 ≤ cfdMonth z ∧ cfdMonth z ≤ 12 := by
  have h := cfdMp_le z
  unfold cfdMonth
  split <;> omega

theorem cfdDay_bounds (z : Nat) : 1 ≤ cfdDay z ∧ cfdDay z ≤ 31 := by
  unfold cfdDay cfdMp cfdDoy cfdYoe cfdDoe
  omega

theorem pad2_two_digits {n : Nat} (h : n ≤ 99) :
    (pad2 n).length = 2 ∧ isDigitString (pad2 n) = true := by
  by_cases h0 : n = 0
  · subst h0
    exact ⟨by decide, by decide⟩
  · unfold pad2
    split
    · next h10 =>
      constructor
      · rw [String.length_append]
        have hl : (decimalStr n).length = 0 + 1 :=
          decimalStr_length_of_range (by omega) (by omega)
        have h01 : ("0" : String).length = 1 := rfl
        omega
      · exact isDigitString_append (by decide) (isDigitString_decimalStr n)
    · next h10 =>
      constructor
      · exact decimalStr_length_of_range (k := 1) (by omega) (by omega)
      · exact isDigitString_decimalStr n

theorem formatDate_shape (z : Nat) (hy1 : 1000 ≤ cfdYear z) (hy2 : cfdYear z ≤ 9999) :
    ∃ ys ms ds : String,
      formatDate z = ys ++ "-" ++ ms ++ "-" ++ ds ∧
      ys.length = 4 ∧ ms.length = 2 ∧ ds.length = 2 ∧
      isDigitString ys = true ∧ isDigitString ms = true ∧ isDigitString ds = true := by
  refine ⟨decimalStr (cfdYear z), pad2 (cfdMonth z), pad2 (cfdDay z), rfl, ?_, ?_, ?_, ?_, ?_, ?_⟩
  · exact decimalStr_length_of_range (k := 3) (by omega) (by omega)
  · exact (pad2_two_digits (by have := cfdMonth_bounds z; omega)).1
  · exact (pad2_two_digits (by have := cfdDay_bounds z; omega)).1
  · exact isDigitString_decimalStr _
  · exact (pad2_two_digits (by have := cfdMonth_bounds z; omega)).2
  · exact (pad2_two_digits (by have := cfdDay_bounds z; omega)).2

/-! ## Pass traversal: pointwise relation between input and output trees -/

mutual

theorem mapTree_rel (f : StepFn) (R : String → Attrs → Attrs → Prop)
    (hf : ∀ tg a s, R tg a (f tg a s).1) :
    ∀ (t : XNode) (s : RState),
      List.Forall₂ (fun a b => a.tag = b.tag ∧ R a.tag a.attrs b.attrs)
        (preorder t) (preorder (mapTree f t s).1)
  | ⟨tg, a, cs⟩, s => by
    simp only [mapTree, preorder]
    exact List.Forall₂.cons ⟨rfl, hf tg a s⟩ (mapForest_rel f R hf cs (f tg a s).2)

theorem mapForest_rel (f : StepFn) (R : String → Attrs → Attrs → Prop)
    (hf : ∀ tg a s, R tg a (f tg a s).1) :
    ∀ (ts : List XNode) (s : RState),
      List.Forall₂ (fun a b => a.tag = b.tag ∧ R a.tag a.attrs b.attrs)
        (preorderF ts) (preorderF (mapForest f ts s).1)
  | [], s => by simp [mapForest, preorderF]
  | c :: cs, s => by
    simp only [mapForest, preorderF]
    exact List.rel_append (mapTree_rel f R hf c s)
      (mapForest_rel f R hf cs (mapTree f c s).2)

end

theorem mapTree_dataRel (f : StepFn) (r : String × Attrs → String × Attrs → Prop)
    (hf : ∀ tg a s, r (tg, a) (tg, (f tg a s).1)) (t : XNode) (s : RState) :
    List.Forall₂ r (dataList t) (dataList (mapTree f t s).1) := by
  unfold dataList
  rw [List.forall₂_map_right_iff, List.forall₂_map_left_iff]
  refine (mapTree_rel f (fun tg a b => r (tg, a) (tg, b)) hf t s).imp ?_
  rintro n m ⟨htag, hr⟩
  unfold nodeData
  rw [← htag]
  exact hr

theorem forall2_comp {α : Type} {R S T : α → α → Prop}
    (h : ∀ a b c, R a b → S b c → T a c) :
    ∀ {l1 l2 l3 : List α}, List.Forall₂ R l1 l2 → List.Forall₂ S l2 l3 →
      List.Forall₂ T l1 l3 := by
  intro l1 l2 l3 h12
  induction h12 generalizing l3 with
  | nil =>
    intro h23
    cases h23
    exact List.Forall₂.nil
  | cons h1 t1 ih =>
    intro h23
    cases h23 with
    | cons h2 t2 => exact List.Forall₂.cons (h _ _ _ h1 h2) (ih t2)

theorem applyPasses_rel (now : Nat) :
    ∀ (ps : List Pass) (t : XNode) (s : RState),
      List.Forall₂ (chainRel now ps) (dataList t) (dataList (applyPasses now ps t s).1)
  | [], t, s => by
    simp only [applyPasses, chainRel]
    exact List.forall₂_same.mpr (fun x _ => rfl)
  | p :: ps, t, s => by
    simp only [applyPasses, chainRel]
    refine forall2_comp ?_ (mapTree_dataRel (stepOf now p) (stepRelD now p) ?_ t s)
      (applyPasses_rel now ps (applyPass now p t s).1 (applyPass now p t s).2)
    · intro x y z hxy hyz
      exact ⟨y, hxy, hyz⟩
    · intro tg a s0
      exact ⟨rfl, s0, rfl⟩

theorem anonymizeTree_rel (now : Nat) (t : XNode) (s : RState) :
    List.Forall₂ (chainRel now passOrder) (dataList t)
      (dataList (anonymizeTree now t s).1) :=
  applyPasses_rel now passOrder t s

theorem forall2_getD {α : Type} {R : α → α → Prop} {l1 l2 : List α}
    (h : List.Forall₂ R l1 l2) (i : Nat) (hi : i < l1.length) (d : α) :
    R (l1.getD i d) (l2.getD i d) := by
  rcases List.forall₂_iff_get.mp h with ⟨hlen, hget⟩
  have hi2 : i < l2.length := hlen ▸ hi
  rw [List.getD_eq_getElem l1 d hi, List.getD_eq_getElem l2 d hi2]
  exact hget i hi hi2

/-! ## Per-step lemmas: key preservation -/

theorem anonNamesStep_keys (tg : String) (a : Attrs) (s : RState) :
    keysOf (anonNamesStep tg a s).1 = keysOf a := by
  unfold anonNamesStep
  split
  · simp only [keysOf_setIfPresent]
  · rfl

theorem anonSsnStep_keys (tg : String) (a : Attrs) (s : RState) :
    keysOf (anonSsnStep tg a s).1 = keysOf a := by
  unfold anonSsnStep
  rw [keysOf_drawSet]

theorem anonDobStep_keys (now : Nat) (tg : String) (a : Attrs) (s : RState) :
    keysOf (anonDobStep now tg a s).1 = keysOf a := by
  unfold anonDobStep
  rw [keysOf_drawSet, keysOf_drawSet]

theorem anonAddressesStep_keys (tg : String) (a : Attrs) (s : RState) :
    keysOf (anonAddressesStep tg a s).1 = keysOf a := by
  unfold anonAddressesStep
  simp only [keysOf_setIfPresent, keysOf_drawSet]

theorem creditorBranch_keys (sentinel tg : String) (pr : Attrs × RState) :
    keysOf (creditorBranch sentinel tg pr).1 = keysOf pr.1 := by
  unfold creditorBranch
  split
  · simp only [keysOf_setAttr]
  · rfl

theorem anonCreditorsStep_keys (tg : String) (a : Attrs) (s : RState) :
    keysOf (anonCreditorsStep tg a s).1 = keysOf a := by
  unfold anonCreditorsStep
  rw [creditorBranch_keys, creditorBranch_keys]

theorem anonContactStep_keys (tg : String) (a : Attrs) (s : RState) :
    keysOf (anonContactStep tg a s).1 = keysOf a := by
  unfold anonContactStep
  split
  · split
    · simp only [keysOf_setAttr]
    · split
      · simp only [keysOf_setAttr]
      · rfl
  · rfl

theorem anonAccountStep_keys (tg : String) (a : Attrs) (s : RState) :
    keysOf (anonAccountStep tg a s).1 = keysOf a := by
  unfold anonAccountStep
  simp only [keysOf_drawSet]

theorem stepOf_keys (now : Nat) (p : Pass) (tg : String) (a : Attrs) (s : RState) :
    keysOf ((stepOf now p) tg a s).1 = keysOf a := by
  cases p with
  | names => exact anonNamesStep_keys tg a s
  | ssn => exact anonSsnStep_keys tg a s
  | dob => exact anonDobStep_keys now tg a s
  | addresses => exact anonAddressesStep_keys tg a s
  | creditors => exact anonCreditorsStep_keys tg a s
  | contact => exact anonContactStep_keys tg a s
  | accounts => exact anonAccountStep_keys tg a s

/-! ## Per-step lemmas: frames (attributes outside the write set keep
their values) -/

theorem anonNamesStep_frame (tg : String) (a : Attrs) (s : RState) {k : String}
    (h1 : k ≠ "_FirstName") (h2 : k ≠ "_MiddleName") (h3 : k ≠ "_LastName")
    (h4 : k ≠ "_UnparsedName") :
    getAttr (anonNamesStep tg a s).1 k = getAttr a k := by
  unfold anonNamesStep
  split
  · simp only
    rw [getAttr_setIfPresent_ne _ _ h4, getAttr_setIfPresent_ne _ _ h3,
      getAttr_setIfPresent_ne _ _ h2, getAttr_setIfPresent_ne _ _ h1]
  · rfl

theorem anonSsnStep_frame (tg : String) (a : Attrs) (s : RState) {k : String}
    (h : k ≠ "_SSN") : getAttr (anonSsnStep tg a s).1 k = getAttr a k := by
  unfold anonSsnStep
  rw [getAttr_drawSet_ne _ _ _ _ h]

theorem anonDobStep_frame (now : Nat) (tg : String) (a : Attrs) (s : RState) {k : String}
    (h1 : k ≠ "_BirthDate") (h2 : k ≠ "_AgeYears") :
    getAttr (anonDobStep now tg a s).1 k = getAttr a k := by
  unfold anonDobStep
  rw [getAttr_drawSet_ne _ _ _ _ h2, getAttr_drawSet_ne _ _ _ _ h1]

theorem anonAddressesStep_frame (tg : String) (a : Attrs) (s : RState) {k : String}
    (h1 : k ≠ "_StreetAddress") (h2 : k ≠ "_City") (h3 : k ≠ "_State")
    (h4 : k ≠ "_PostalCode") :
    getAttr (anonAddressesStep tg a s).1 k = getAttr a k := by
  unfold anonAddressesStep
  simp only
  rw [getAttr_setIfPresent_ne _ _ h4, getAttr_setIfPresent_ne _ _ h3,
    getAttr_setIfPresent_ne _ _ h2, getAttr_drawSet_ne _ _ _ _ h1]

theorem creditorBranch_frame (sentinel tg : String) (pr : Attrs × RState) {k : String}
    (h : k ≠ "_Name") : getAttr (creditorBranch sentinel tg pr).1 k = getAttr pr.1 k := by
  unfold creditorBranch
  split
  · exact getAttr_setAttr_ne _ _ h
  · rfl

theorem anonCreditorsStep_frame (tg : String) (a : Attrs) (s : RState) {k : String}
    (h : k ≠ "_Name") : getAttr (anonCreditorsStep tg a s).1 k = getAttr a k := by
  unfold anonCreditorsStep
  rw [creditorBranch_frame _ _ _ h, creditorBranch_frame _ _ _ h]

theorem anonContactStep_frame (tg : String) (a : Attrs) (s : RState) {k : String}
    (h : k ≠ "_Value") : getAttr (anonContactStep tg a s).1 k = getAttr a k := by
  unfold anonContactStep
  split
  · split
    · exact getAttr_setAttr_ne _ _ h
    · split
      · exact getAttr_setAttr_ne _ _ h
      · rfl
  · rfl

theorem anonAccountStep_frame (tg : String) (a : Attrs) (s : RState) {k : String}
    (h1 : k ≠ "_AccountIdentifier") (h2 : k ≠ "InternalAccountIdentifier")
    (h3 : k ≠ "LenderCaseIdentifier") (h4 : k ≠ "_RequestedByName") :
    getAttr (anonAccountStep tg a s).1 k = getAttr a k := by
  unfold anonAccountStep
  rw [getAttr_drawSet_ne _ _ _ _ h4, getAttr_drawSet_ne _ _ _ _ h3,
    getAttr_drawSet_ne _ _ _ _ h2, getAttr_drawSet_ne _ _ _ _ h1]

theorem stepOf_frame (now : Nat) (p : Pass) (tg : String) (a : Attrs) (s : RState)
    {k : String} (h : k ∉ writeAttrsOf p) :
    getAttr ((stepOf now p) tg a s).1 k = getAttr a k := by
  cases p with
  | names =>
    simp only [writeAttrsOf, List.mem_cons, List.mem_singleton, not_or] at h
    exact anonNamesStep_frame tg a s h.1 h.2.1 h.2.2.1 (by simpa using h.2.2.2)
  | ssn =>
    simp only [writeAttrsOf, List.mem_singleton] at h
    exact anonSsnStep_frame tg a s h
  | dob =>
    simp only [writeAttrsOf, List.mem_cons, List.mem_singleton, not_or] at h
    exact anonDobStep_frame now tg a s h.1 (by simpa using h.2)
  | addresses =>
    simp only [writeAttrsOf, List.mem_cons, List.mem_singleton, not_or] at h
    exact anonAddressesStep_frame tg a s h.1 h.2.1 h.2.2.1 (by simpa using h.2.2.2)
  | creditors =>
    simp only [writeAttrsOf, List.mem_singleton] at h
    exact anonCreditorsStep_frame tg a s h
  | contact =>
    simp only [writeAttrsOf, List.mem_singleton] at h
    exact anonContactStep_frame tg a s h
  | accounts =>
    simp only [writeAttrsOf, List.mem_cons, List.mem_singleton, not_or] at h
    exact anonAccountStep_frame tg a s h.1 h.2.1 h.2.2.1 (by simpa using h.2.2.2)

/-! ## Per-step lemmas: identity on non-matching nodes -/

theorem anonNamesStep_id (tg : String) (a : Attrs) (s : RState)
    (h1 : hasAttr a "_FirstName" = false) (h2 : hasAttr a "_LastName" = false) :
    anonNamesStep tg a s = (a, s) := by
  unfold anonNamesStep
  rw [h1, h2]
  rfl

theorem anonSsnStep_id (tg : String) (a : Attrs) (s : RState)
    (h : hasAttr a "_SSN" = false) : anonSsnStep tg a s = (a, s) := by
  unfold anonSsnStep
  rw [drawSet_of_absent _ _ _ _ h]

theorem anonDobStep_id (now : Nat) (tg : String) (a : Attrs) (s : RState)
    (h1 : hasAttr a "_BirthDate" = false) (h2 : hasAttr a "_AgeYears" = false) :
    anonDobStep now tg a s = (a, s) := by
  unfold anonDobStep
  rw [drawSet_of_absent _ _ _ _ h1]
  exact drawSet_of_absent _ _ _ _ h2

theorem anonAddressesStep_id (tg : String) (a : Attrs) (s : RState)
    (h1 : hasAttr a "_StreetAddress" = false) (h2 : hasAttr a "_City" = false)
    (h3 : hasAttr a "_State" = false) (h4 : hasAttr a "_PostalCode" = false) :
    anonAddressesStep tg a s = (a, s) := by
  unfold anonAddressesStep
  rw [drawSet_of_absent _ _ _ _ h1]
  simp only
  rw [setIfPresent_of_absent _ _ h2, setIfPresent_of_absent _ _ h3,
    setIfPresent_of_absent _ _ h4]

theorem creditorBranch_id (sentinel tg : String) (pr : Attrs × RState)
    (h : (tg = sentinel && hasAttr pr.1 "_Name") = false) :
    creditorBranch sentinel tg pr = pr := by
  unfold creditorBranch
  rw [h]
  rfl

theorem anonCreditorsStep_id (tg : String) (a : Attrs) (s : RState)
    (h1 : (tg = "_CREDITOR" && hasAttr a "_Name") = false)
    (h2 : (tg = "REQUESTING_PARTY" && hasAttr a "_Name") = false) :
    anonCreditorsStep tg a s = (a, s) := by
  unfold anonCreditorsStep
  rw [creditorBranch_id "_CREDITOR" tg (a, s) h1]
  exact creditorBranch_id "REQUESTING_PARTY" tg (a, s) h2

theorem anonContactStep_id_of_no_value (tg : String) (a : Attrs) (s : RState)
    (h : hasAttr a "_Value" = false) : anonContactStep tg a s = (a, s) := by
  unfold anonContactStep
  rw [h]
  rfl

theorem anonContactStep_id_of_other_type (tg : String) (a : Attrs) (s : RState)
    (h1 : getAttr a "_Type" ≠ some "Phone") (h2 : getAttr a "_Type" ≠ some "Email")
    (h3 : getAttr a "_Type" ≠ some "Fax") : anonContactStep tg a s = (a, s) := by
  unfold anonContactStep
  split
  · simp [h1, h2, h3]
  · rfl

theorem anonAccountStep_id (tg : String) (a : Attrs) (s : RState)
    (h1 : hasAttr a "_AccountIdentifier" = false)
    (h2 : hasAttr a "InternalAccountIdentifier" = false)
    (h3 : hasAttr a "LenderCaseIdentifier" = false)
    (h4 : hasAttr a "_RequestedByName" = false) :
    anonAccountStep tg a s = (a, s) := by
  unfold anonAccountStep
  rw [drawSet_of_absent _ _ _ _ h1]
  simp only
  rw [drawSet_of_absent _ _ _ _ h2]
  simp only
  rw [drawSet_of_absent _ _ _ _ h3]
  simp only
  rw [drawSet_of_absent _ _ _ _ h4]

theorem stepOf_untouched (now : Nat) (p : Pass) (tg : String) (a : Attrs) (s : RState)
    (h : untouchedCond (tg, a) = true) : (stepOf now p) tg a s = (a, s) := by
  unfold untouchedCond recognizedAttrs at h
  simp only [List.all_cons, List.all_nil, Bool.and_eq_true, Bool.not_eq_true',
    Bool.and_true, Bool.not_eq_true, Bool.or_eq_false_iff] at h
  obtain ⟨⟨hF, hM, hL, hU, hS, hB, hA, hSt, hCi, hSta, hPo, hV, hAc, hIn, hLe, hRq⟩, hcr⟩ := h
  cases p with
  | names => exact anonNamesStep_id tg a s hF hL
  | ssn => exact anonSsnStep_id tg a s hS
  | dob => exact anonDobStep_id now tg a s hB hA
  | addresses => exact anonAddressesStep_id tg a s hSt hCi hSta hPo
  | creditors =>
    refine anonCreditorsStep_id tg a s ?_ ?_
    · rcases hn : hasAttr a "_Name" with _ | _
      · simp
      · rcases ht : decide (tg = "_CREDITOR") with _ | _
        · simp
        · exfalso
          have : tg = "_CREDITOR" := of_decide_eq_true ht
          simp [this, hn] at hcr
    · rcases hn : hasAttr a "_Name" with _ | _
      · simp
      · rcases ht : decide (tg = "REQUESTING_PARTY") with _ | _
        · simp
        · exfalso
          have : tg = "REQUESTING_PARTY" := of_decide_eq_true ht
          simp [this, hn] at hcr
  | contact => exact anonContactStep_id_of_no_value tg a s hV
  | accounts => exact anonAccountStep_id tg a s hAc hIn hLe hRq

/-! ## Per-step lemmas: what each pass writes -/

theorem anonNamesStep_linkage (tg : String) (a : Attrs) (s : RState)
    (hF : hasAttr a "_FirstName" = true) :
    ∃ f m l, f ∈ firstNames ∧ m ∈ middleInitials ∧ l ∈ lastNames ∧
      getAttr (anonNamesStep tg a s).1 "_FirstName" = some f ∧
      (hasAttr a "_MiddleName" = true →
        getAttr (anonNamesStep tg a s).1 "_MiddleName" = some m) ∧
      (hasAttr a "_LastName" = true →
        getAttr (anonNamesStep tg a s).1 "_LastName" = some l) ∧
      (hasAttr a "_UnparsedName" = true →
        getAttr (anonNamesStep tg a s).1 "_UnparsedName" = some (f ++ " " ++ m ++ " " ++ l)) := by
  unfold anonNamesStep
  rw [hF]
  simp only [Bool.true_or, if_true]
  refine ⟨(choice firstNames s).1, (choice middleInitials (choice lastNames (choice firstNames s).2).2).1,
    (choice lastNames (choice firstNames s).2).1,
    choice_mem (by decide) s, choice_mem (by decide) _, choice_mem (by decide) _, ?_, ?_, ?_, ?_⟩
  · rw [getAttr_setIfPresent_ne _ _ (by decide), getAttr_setIfPresent_ne _ _ (by decide),
      getAttr_setIfPresent_ne _ _ (by decide)]
    exact getAttr_setIfPresent_self a _ hF
  · intro hM
    rw [getAttr_setIfPresent_ne _ _ (by decide), getAttr_setIfPresent_ne _ _ (by decide)]
    refine getAttr_setIfPresent_self _ _ ?_
    rw [hasAttr_setIfPresent]
    exact hM
  · intro hL
    rw [getAttr_setIfPresent_ne _ _ (by decide)]
    refine getAttr_setIfPresent_self _ _ ?_
    rw [hasAttr_setIfPresent, hasAttr_setIfPresent]
    exact hL
  · intro hU
    refine getAttr_setIfPresent_self _ _ ?_
    rw [hasAttr_setIfPresent, hasAttr_setIfPresent, hasAttr_setIfPresent]
    exact hU

theorem anonSsnStep_char (tg : String) (a : Attrs) (s : RState)
    (h : hasAttr a "_SSN" = true) :
    ∃ x y z, 100 ≤ x ∧ x ≤ 999 ∧ 10 ≤ y ∧ y ≤ 99 ∧ 1000 ≤ z ∧ z ≤ 9999 ∧
      getAttr (anonSsnStep tg a s).1 "_SSN" =
        some (decimalStr x ++ decimalStr y ++ decimalStr z) := by
  unfold anonSsnStep
  have hx := randint_mem (show 100 ≤ 999 by norm_num) s
  have hy := randint_mem (show 10 ≤ 99 by norm_num) (randint 100 999 s).2
  have hz := randint_mem (show 1000 ≤ 9999 by norm_num)
    (randint 10 99 (randint 100 999 s).2).2
  exact ⟨_, _, _, hx.1, hx.2, hy.1, hy.2, hz.1, hz.2, getAttr_drawSet_self _ _ a s h⟩

theorem anonDobStep_birth (now : Nat) (tg : String) (a : Attrs) (s : RState)
    (h : hasAttr a "_BirthDate" = true) :
    ∃ y e, 30 ≤ y ∧ y ≤ 50 ∧ e ≤ 365 ∧
      getAttr (anonDobStep now tg a s).1 "_BirthDate" =
        some (formatDate (now - (y * 365 + e))) := by
  unfold anonDobStep
  have hy := randint_mem (show 30 ≤ 50 by norm_num) s
  have he := randint_mem (show 0 ≤ 365 by norm_num) (randint 30 50 s).2
  refine ⟨_, _, hy.1, hy.2, he.2, ?_⟩
  rw [getAttr_drawSet_ne _ _ _ _ (by decide)]
  exact getAttr_drawSet_self _ _ a s h

theorem anonContactStep_typed (tg : String) (a : Attrs) (s : RState)
    (hV : hasAttr a "_Value" = true) (hT : hasAttr a "_Type" = true)
    (hTy : getAttr a "_Type" = some "Phone" ∨ getAttr a "_Type" = some "Email" ∨
      getAttr a "_Type" = some "Fax") :
    ∃ n, 1000000 ≤ n ∧ n ≤ 9999999 ∧
      getAttr (anonContactStep tg a s).1 "_Value" = some ("555" ++ decimalStr n) := by
  unfold anonContactStep
  rw [hV, hT]
  simp only [Bool.and_self, if_true]
  have hn := randint_mem (show 1000000 ≤ 9999999 by norm_num) s
  rcases hTy with hP | hE | hF
  · rw [if_pos hP]
    exact ⟨_, hn.1, hn.2, getAttr_setAttr_self a _ hV⟩
  · have hP : getAttr a "_Type" ≠ some "Phone" := by rw [hE]; decide
    rw [if_neg hP, if_pos (by rw [hE]; decide)]
    exact ⟨_, hn.1, hn.2, getAttr_setAttr_self a _ hV⟩
  · have hP : getAttr a "_Type" ≠ some "Phone" := by rw [hF]; decide
    rw [if_neg hP, if_pos (by rw [hF]; decide)]
    exact ⟨_, hn.1, hn.2, getAttr_setAttr_self a _ hV⟩

/-! ## Chain-level lemmas -/

theorem chainRel_untouched (now : Nat) :
    ∀ (ps : List Pass) (x y : String × Attrs), chainRel now ps x y →
      untouchedCond x = true → y = x
  | [], x, y, h, _ => h.symm
  | p :: ps, x, y, h, hu => by
    obtain ⟨z, ⟨htag, s, hz⟩, hrest⟩ := h
    have hstep : (stepOf now p) x.1 x.2 s = (x.2, s) := stepOf_untouched now p x.1 x.2 s (by
      rcases x with ⟨tg, a⟩
      exact hu)
    have hzx : z = x := by
      rcases z with ⟨ztag, za⟩
      rcases x with ⟨xtag, xa⟩
      simp only at htag hz
      rw [htag, hz, hstep]
    rw [hzx] at hrest
    exact chainRel_untouched now ps x y hrest hu

theorem chainRel_keys (now : Nat) :
    ∀ (ps : List Pass) (x y : String × Attrs), chainRel now ps x y →
      y.1 = x.1 ∧ keysOf y.2 = keysOf x.2
  | [], x, y, h => by rw [h]; exact ⟨rfl, rfl⟩
  | p :: ps, x, y, h => by
    obtain ⟨z, ⟨htag, s, hz⟩, hrest⟩ := h
    obtain ⟨ht2, hk2⟩ := chainRel_keys now ps z y hrest
    refine ⟨ht2.trans htag, hk2.trans ?_⟩
    rw [hz]
    exact stepOf_keys now p x.1 x.2 s

theorem chainRel_frame (now : Nat) (k : String) :
    ∀ (ps : List Pass), (∀ p ∈ ps, k ∉ writeAttrsOf p) →
      ∀ (x y : String × Attrs), chainRel now ps x y → getAttr y.2 k = getAttr x.2 k
  | [], _, x, y, h => by rw [h]
  | p :: ps, hk, x, y, h => by
    obtain ⟨z, ⟨htag, s, hz⟩, hrest⟩ := h
    have h1 : getAttr z.2 k = getAttr x.2 k := by
      rw [hz]
      exact stepOf_frame now p x.1 x.2 s (hk p (List.mem_cons_self p ps))
    rw [← h1]
    exact chainRel_frame now k ps (fun q hq => hk q (List.mem_cons_of_mem p hq)) z y hrest

theorem chainRel_hasAttr (now : Nat) (ps : List Pass) (x y : String × Attrs)
    (h : chainRel now ps x y) (k : String) : hasAttr y.2 k = hasAttr x.2 k :=
  hasAttr_congr (chainRel_keys now ps x y h).2 k

/-! ## Write-set lemmas (pass order insensitivity) -/

theorem type_not_written (p : Pass) : "_Type" ∉ writeAttrsOf p := by
  cases p <;> decide

theorem writesOf_congr (p : Pass) (tg : String) {a b : Attrs}
    (hk : keysOf b = keysOf a) (ht : getAttr b "_Type" = getAttr a "_Type") :
    writesOf p tg b = writesOf p tg a := by
  have hha : ∀ k, hasAttr b k = hasAttr a k := hasAttr_congr hk
  cases p <;> simp only [writesOf, hha, ht]

theorem getAttr_setIfPresent_skip (a : Attrs) (k0 v k : String)
    (h : k ≠ k0 ∨ hasAttr a k0 = false) :
    getAttr (setIfPresent a k0 v) k = getAttr a k := by
  rcases h with h | h
  · exact getAttr_setIfPresent_ne a v h
  · rw [setIfPresent_of_absent a v h]

theorem getAttr_drawSet_skip (k0 : String) (gen : RState → String × RState) (a : Attrs)
    (s : RState) (k : String) (h : k ≠ k0 ∨ hasAttr a k0 = false) :
    getAttr (drawSet k0 gen a s).1 k = getAttr a k := by
  rcases h with h | h
  · exact getAttr_drawSet_ne k0 gen a s h
  · rw [drawSet_of_absent k0 gen a s h]

theorem creditorBranch_skip (sentinel tg : String) (pr : Attrs × RState) (k : String)
    (h : (tg = sentinel && hasAttr pr.1 "_Name") = false ∨ k ≠ "_Name") :
    getAttr (creditorBranch sentinel tg pr).1 k = getAttr pr.1 k := by
  rcases h with h | h
  · rw [creditorBranch_id sentinel tg pr h]
  · exact creditorBranch_frame sentinel tg pr h


theorem bool_eq_false {b : Bool} (h : ¬ b = true) : b = false := by
  cases b
  · rfl
  · exact absurd rfl h

theorem notMem_condSingleton {k kk : String} {b : Bool}
    (h : k ∉ if b = true then [kk] else []) : k ≠ kk ∨ b = false := by
  cases b with
  | false => exact Or.inr rfl
  | true =>
    left
    intro hk0
    subst hk0
    simp at h

theorem stepOf_writes_frame (now : Nat) (p : Pass) (tg : String) (a : Attrs) (s : RState)
    (k : String) (h : k ∉ writesOf p tg a) :
    getAttr ((stepOf now p) tg a s).1 k = getAttr a k := by
  cases p with
  | names =>
    by_cases htr : (hasAttr a "_FirstName" || hasAttr a "_LastName") = true
    · simp only [writesOf, htr, if_true, List.mem_append, not_or] at h
      obtain ⟨⟨⟨hF, hM⟩, hL⟩, hU⟩ := h
      have hF2 := notMem_condSingleton hF
      have hM2 := notMem_condSingleton hM
      have hL2 := notMem_condSingleton hL
      have hU2 := notMem_condSingleton hU
      show getAttr (anonNamesStep tg a s).1 k = getAttr a k
      unfold anonNamesStep
      rw [htr]
      simp only [if_true]
      rw [getAttr_setIfPresent_skip _ _ _ _ (by
          rcases hU2 with h | h
          · exact Or.inl h
          · right
            rw [hasAttr_setIfPresent, hasAttr_setIfPresent, hasAttr_setIfPresent]
            exact h),
        getAttr_setIfPresent_skip _ _ _ _ (by
          rcases hL2 with h | h
          · exact Or.inl h
          · right
            rw [hasAttr_setIfPresent, hasAttr_setIfPresent]
            exact h),
        getAttr_setIfPresent_skip _ _ _ _ (by
          rcases hM2 with h | h
          · exact Or.inl h
          · right
            rw [hasAttr_setIfPresent]
            exact h),
        getAttr_setIfPresent_skip _ _ _ _ hF2]
    · simp only [Bool.or_eq_true, not_or] at htr
      show getAttr (anonNamesStep tg a s).1 k = getAttr a k
      rw [anonNamesStep_id tg a s (bool_eq_false htr.1) (bool_eq_false htr.2)]
  | ssn =>
    show getAttr (anonSsnStep tg a s).1 k = getAttr a k
    unfold anonSsnStep
    refine getAttr_drawSet_skip _ _ a s k ?_
    have : k ∉ if hasAttr a "_SSN" = true then ["_SSN"] else [] := h
    exact notMem_condSingleton this
  | dob =>
    simp only [writesOf, List.mem_append, not_or] at h
    obtain ⟨hB, hA⟩ := h
    have hB2 := notMem_condSingleton hB
    have hA2 := notMem_condSingleton hA
    show getAttr (anonDobStep now tg a s).1 k = getAttr a k
    unfold anonDobStep
    rw [getAttr_drawSet_skip _ _ _ _ k (by
        rcases hA2 with h | h
        · exact Or.inl h
        · right
          rw [hasAttr_drawSet]
          exact h),
      getAttr_drawSet_skip _ _ _ _ k hB2]
  | addresses =>
    simp only [writesOf, List.mem_append, not_or] at h
    obtain ⟨⟨⟨hSt, hCi⟩, hSta⟩, hPo⟩ := h
    have hSt2 := notMem_condSingleton hSt
    have hCi2 := notMem_condSingleton hCi
    have hSta2 := notMem_condSingleton hSta
    have hPo2 := notMem_condSingleton hPo
    show getAttr (anonAddressesStep tg a s).1 k = getAttr a k
    unfold anonAddressesStep
    simp only
    rw [getAttr_setIfPresent_skip _ _ _ _ (by
        rcases hPo2 with h | h
        · exact Or.inl h
        · right
          rw [hasAttr_setIfPresent, hasAttr_setIfPresent, hasAttr_drawSet]
          exact h),
      getAttr_setIfPresent_skip _ _ _ _ (by
        rcases hSta2 with h | h
        · exact Or.inl h
        · right
          rw [hasAttr_setIfPresent, hasAttr_drawSet]
          exact h),
      getAttr_setIfPresent_skip _ _ _ _ (by
        rcases hCi2 with h | h
        · exact Or.inl h
        · right
          rw [hasAttr_drawSet]
          exact h),
      getAttr_drawSet_skip _ _ _ _ k hSt2]
  | creditors =>
    simp only [writesOf, List.mem_append, not_or] at h
    obtain ⟨hC, hR⟩ := h
    have hC2 := notMem_condSingleton hC
    have hR2 := notMem_condSingleton hR
    show getAttr (anonCreditorsStep tg a s).1 k = getAttr a k
    unfold anonCreditorsStep
    rw [creditorBranch_skip _ _ _ k (by
        rcases hR2 with h | h
        · exact Or.inr h
        · left
          rw [hasAttr_congr (creditorBranch_keys "_CREDITOR" tg (a, s)) "_Name"]
          exact h),
      creditorBranch_skip _ _ _ k (by
        rcases hC2 with h | h
        · exact Or.inr h
        · exact Or.inl h)]
  | contact =>
    show getAttr (anonContactStep tg a s).1 k = getAttr a k
    by_cases hcond : (hasAttr a "_Value" && hasAttr a "_Type" &&
        (decide (getAttr a "_Type" = some "Phone") || decide (getAttr a "_Type" = some "Email") ||
         decide (getAttr a "_Type" = some "Fax"))) = true
    · have hk : k ≠ "_Value" := by
        intro hk0
        subst hk0
        simp only [writesOf] at h
        rw [if_pos (by
          simp only [Bool.and_eq_true, Bool.or_eq_true] at hcond ⊢
          exact hcond)] at h
        simp at h
      exact anonContactStep_frame tg a s hk
    · simp only [Bool.and_eq_true, Bool.or_eq_true, decide_eq_true_eq, not_and_or, not_or]
        at hcond
      rcases hcond with hVT | hTy
      · rcases hVT with hV | hT
        · rw [anonContactStep_id_of_no_value tg a s (bool_eq_false hV)]
        · unfold anonContactStep
          rw [show (hasAttr a "_Value" && hasAttr a "_Type") = false by
            rw [bool_eq_false hT]
            exact Bool.and_false _]
          rfl
      · rw [anonContactStep_id_of_other_type tg a s hTy.1.1 hTy.1.2 hTy.2]
  | accounts =>
    simp only [writesOf, List.mem_append, not_or] at h
    obtain ⟨⟨⟨hAc, hIn⟩, hLe⟩, hRq⟩ := h
    have hAc2 := notMem_condSingleton hAc
    have hIn2 := notMem_condSingleton hIn
    have hLe2 := notMem_condSingleton hLe
    have hRq2 := notMem_condSingleton hRq
    show getAttr (anonAccountStep tg a s).1 k = getAttr a k
    unfold anonAccountStep
    rw [getAttr_drawSet_skip _ _ _ _ k (by
        rcases hRq2 with h | h
        · exact Or.inl h
        · right
          rw [hasAttr_drawSet, hasAttr_drawSet, hasAttr_drawSet]
          exact h),
      getAttr_drawSet_skip _ _ _ _ k (by
        rcases hLe2 with h | h
        · exact Or.inl h
        · right
          rw [hasAttr_drawSet, hasAttr_drawSet]
          exact h),
      getAttr_drawSet_skip _ _ _ _ k (by
        rcases hIn2 with h | h
        · exact Or.inl h
        · right
          rw [hasAttr_drawSet]
          exact h),
      getAttr_drawSet_skip _ _ _ _ k hAc2]

theorem map_eq_of_forall2 {α β : Type} {g : α → β} :
    ∀ {l l' : List α}, List.Forall₂ (fun x y => g y = g x) l l' → l'.map g = l.map g := by
  intro l l' h
  induction h with
  | nil => rfl
  | cons h1 _ ih => simp only [List.map_cons, ih, h1]

theorem applyPass_preserves_writes (now : Nat) (p q : Pass) (t : XNode) (s : RState) :
    (preorder (applyPass now q t s).1).map (fun n => writesOf p n.tag n.attrs) =
      (preorder t).map (fun n => writesOf p n.tag n.attrs) := by
  have hrel := mapTree_rel (stepOf now q)
    (fun tg a b => keysOf b = keysOf a ∧ getAttr b "_Type" = getAttr a "_Type")
    (fun tg a s0 => ⟨stepOf_keys now q tg a s0, stepOf_frame now q tg a s0 (type_not_written q)⟩)
    t s
  refine map_eq_of_forall2 (hrel.imp ?_)
  rintro n m ⟨htag, hk, ht⟩
  rw [← htag]
  exact writesOf_congr p n.tag hk ht

theorem nodeWrites_invariant (now : Nat) (p q : Pass) (t : XNode) (s : RState) :
    nodeWrites p (applyPass now q t s).1 = nodeWrites p t := by
  unfold nodeWrites
  rw [applyPass_preserves_writes now p q t s]

theorem writtenPairs_eq (now : Nat) :
    ∀ (ps : List Pass) (t : XNode) (s : RState),
      writtenPairs now ps t s = (ps.map (fun p => nodeWrites p t)).flatten
  | [], _, _ => rfl
  | p :: ps, t, s => by
    simp only [writtenPairs, List.map_cons, List.flatten_cons]
    congr 1
    rw [writtenPairs_eq now ps (applyPass now p t s).1 (applyPass now p t s).2]
    congr 1
    refine List.map_congr_left ?_
    intro q _
    exact nodeWrites_invariant now q p t s

theorem writeAttrs_disjoint : ∀ p q : Pass, p ≠ q →
    ∀ k ∈ writeAttrsOf p, k ∉ writeAttrsOf q := by
  decide

theorem writesOf_subset (p : Pass) (tg : String) (a : Attrs) :
    ∀ k ∈ writesOf p tg a, k ∈ writeAttrsOf p := by
  intro k hk
  cases p <;> simp only [writesOf, writeAttrsOf, List.mem_append] at hk ⊢ <;>
    (repeat' split at hk) <;> (try simp_all) <;> tauto

/-! ## Remaining helper lemmas for the claims -/

theorem writeAttrsOf_subset_any : ∀ p : Pass, ∀ k ∈ writeAttrsOf p, k ∈ anyWriteAttrs := by
  decide

theorem chainRel_append (now : Nat) :
    ∀ (ps qs : List Pass) (x y : String × Attrs),
      chainRel now (ps ++ qs) x y ↔ ∃ z, chainRel now ps x z ∧ chainRel now qs z y
  | [], qs, x, y => by
    simp only [List.nil_append, chainRel]
    constructor
    · intro h
      exact ⟨x, rfl, h⟩
    · rintro ⟨z, rfl, h⟩
      exact h
  | p :: ps, qs, x, y => by
    simp only [List.cons_append, chainRel, relComp]
    constructor
    · rintro ⟨z, hz, hrest⟩
      obtain ⟨w, hw1, hw2⟩ := (chainRel_append now ps qs z y).mp hrest
      exact ⟨w, ⟨z, hz, hw1⟩, hw2⟩
    · rintro ⟨w, ⟨z, hz, hw1⟩, hw2⟩
      exact ⟨z, hz, (chainRel_append now ps qs z y).mpr ⟨w, hw1, hw2⟩⟩

theorem cfdYear_lower (z : Nat) : 1000 ≤ cfdYear z := by
  unfold cfdYear cfdMonth cfdMp cfdDoy cfdYoe cfdEra cfdDoe
  omega

theorem cfdYear_upper {z : Nat} (h : z ≤ 2932896) : cfdYear z ≤ 9999 := by
  unfold cfdYear
  split
  · next hm =>
    unfold cfdMonth cfdMp cfdDoy cfdYoe cfdDoe at hm
    unfold cfdYoe cfdEra cfdDoe
    split at hm <;> omega
  · unfold cfdYoe cfdEra cfdDoe
    omega

/-- The (tag, attributes) data of the i-th pre-order node before and after
the full pass sequence are related by the pass chain. -/
theorem anonymizeTree_node (now : Nat) (t : XNode) (s : RState) (i : Nat)
    (hi : i < (dataList t).length) :
    chainRel now passOrder ((dataList t).getD i defaultData)
      ((dataList (anonymizeTree now t s).1).getD i defaultData) :=
  forall2_getD (anonymizeTree_rel now t s) i hi defaultData

/-! ## The claims -/

/-- C1: anonymization preserves tree shape.  For every input tree, random
stream and current day, the output tree has the same node count, the same
pre-order tag sequence, and node by node the same attribute-name list;
and any attribute whose name no rule can write keeps its exact value, so
no node or attribute is added or removed and only rule-recognized
attribute values change. -/
theorem claim1_shape (now : Nat) (t : XNode) (s : RState) :
    (dataList (anonymizeTree now t s).1).length = (dataList t).length ∧
    (dataList (anonymizeTree now t s).1).map Prod.fst = (dataList t).map Prod.fst ∧
    List.Forall₂
      (fun x y => keysOf y.2 = keysOf x.2 ∧
        ∀ k, k ∉ anyWriteAttrs → getAttr y.2 k = getAttr x.2 k)
      (dataList t) (dataList (anonymizeTree now t s).1) := by
  have h := anonymizeTree_rel now t s
  refine ⟨h.length_eq.symm, ?_, ?_⟩
  · exact map_eq_of_forall2 (h.imp (fun x y hxy => (chainRel_keys now passOrder x y hxy).1))
  · refine h.imp ?_
    intro x y hxy
    refine ⟨(chainRel_keys now passOrder x y hxy).2, ?_⟩
    intro k hk
    refine chainRel_frame now k passOrder ?_ x y hxy
    intro p _ hmem
    exact hk (writeAttrsOf_subset_any p k hmem)

/-- C2: a node carrying none of the recognized PII attributes, and which
is not a `_CREDITOR`/`REQUESTING_PARTY` node with `_Name`, is left
byte-identical (same tag, same attribute names and values) by the full
pass sequence. -/
theorem claim2_untouched (now : Nat) (t : XNode) (s : RState) (i : Nat)
    (hi : i < (dataList t).length)
    (hcond : untouchedCond ((dataList t).getD i defaultData) = true) :
    (dataList (anonymizeTree now t s).1).getD i defaultData =
      (dataList t).getD i defaultData :=
  chainRel_untouched now passOrder _ _ (anonymizeTree_node now t s i hi) hcond

theorem claim2_untouched_witness :
    (0 < (dataList ⟨"LOAN_APPLICATION", [("MISMOVersionID", "2.3")], []⟩).length) ∧
    untouchedCond ((dataList ⟨"LOAN_APPLICATION", [("MISMOVersionID", "2.3")], []⟩).getD 0
      defaultData) = true ∧
    (dataList (anonymizeTree 20738 ⟨"LOAN_APPLICATION", [("MISMOVersionID", "2.3")], []⟩
        ⟨fun _ => 0, 0⟩).1).getD 0 defaultData =
      (dataList ⟨"LOAN_APPLICATION", [("MISMOVersionID", "2.3")], []⟩).getD 0 defaultData :=
  ⟨by decide, by decide,
    claim2_untouched 20738 ⟨"LOAN_APPLICATION", [("MISMOVersionID", "2.3")], []⟩
      ⟨fun _ => 0, 0⟩ 0 (by decide) (by decide)⟩

/-- C4: the engine never suppresses or recovers from an error locally:
for every parse outcome, `anonymize_xml` either runs all seven passes and
returns the serialized tree, or the collaborator's parse failure surfaces
as a single validation-kind error wrapping the collaborator's message,
which the API layer maps to HTTP 400, distinct from the unexpected kind
mapped to HTTP 500. -/
theorem claim4_error_propagation (now : Nat) (serializer : XNode → String)
    (parsed : Except String XNode) (s : RState) :
    (∀ root, parsed = Except.ok root →
      anonymizeXml now serializer parsed s =
        Except.ok (serializer (anonymizeTree now root s).1)) ∧
    (∀ e, parsed = Except.error e →
      anonymizeXml now serializer parsed s =
        Except.error (AppError.validation ("Error parsing or anonymizing XML: " ++ e)) ∧
      httpStatusOf (AppError.validation ("Error parsing or anonymizing XML: " ++ e)) = 400 ∧
      ∀ m, AppError.validation ("Error parsing or anonymizing XML: " ++ e) ≠
          AppError.unexpected m ∧ httpStatusOf (AppError.unexpected m) = 500) := by
  constructor
  · rintro root rfl
    rfl
  · rintro e rfl
    refine ⟨rfl, rfl, ?_⟩
    intro m
    exact ⟨fun h => AppError.noConfusion h, rfl⟩

/-- C3: on a node carrying both `_FirstName` and `_UnparsedName`, the
full pass sequence leaves `_UnparsedName` equal to the node's own three
fresh draws joined by single spaces, the same draws stored in that node's
`_FirstName` (always), `_MiddleName` and `_LastName` (when present). -/
theorem claim3_name_linkage (now : Nat) (t : XNode) (s : RState) (i : Nat)
    (hi : i < (dataList t).length)
    (hF : hasAttr ((dataList t).getD i defaultData).2 "_FirstName" = true)
    (hU : hasAttr ((dataList t).getD i defaultData).2 "_UnparsedName" = true) :
    ∃ f m l, f ∈ firstNames ∧ m ∈ middleInitials ∧ l ∈ lastNames ∧
      getAttr ((dataList (anonymizeTree now t s).1).getD i defaultData).2 "_UnparsedName" =
        some (f ++ " " ++ m ++ " " ++ l) ∧
      getAttr ((dataList (anonymizeTree now t s).1).getD i defaultData).2 "_FirstName" =
        some f ∧
      (hasAttr ((dataList t).getD i defaultData).2 "_MiddleName" = true →
        getAttr ((dataList (anonymizeTree now t s).1).getD i defaultData).2 "_MiddleName" =
          some m) ∧
      (hasAttr ((dataList t).getD i defaultData).2 "_LastName" = true →
        getAttr ((dataList (anonymizeTree now t s).1).getD i defaultData).2 "_LastName" =
          some l) := by
  have h := anonymizeTree_node now t s i hi
  rw [show passOrder = [Pass.names] ++
    [Pass.ssn, Pass.dob, Pass.addresses, Pass.creditors, Pass.contact, Pass.accounts]
    from rfl] at h
  obtain ⟨z, hz1, hz2⟩ := (chainRel_append now _ _ _ _).mp h
  obtain ⟨w, ⟨htag, s0, hw⟩, hwz⟩ := hz1
  have hwz : w = z := hwz
  subst hwz
  obtain ⟨f, m, l, hfm, hmm, hlm, hgF, hgM, hgL, hgU⟩ :=
    anonNamesStep_linkage ((dataList t).getD i defaultData).1
      ((dataList t).getD i defaultData).2 s0 hF
  have hrestF : getAttr ((dataList (anonymizeTree now t s).1).getD i defaultData).2
      "_FirstName" = getAttr w.2 "_FirstName" :=
    chainRel_frame now "_FirstName" _ (by decide) _ _ hz2
  have hrestM : getAttr ((dataList (anonymizeTree now t s).1).getD i defaultData).2
      "_MiddleName" = getAttr w.2 "_MiddleName" :=
    chainRel_frame now "_MiddleName" _ (by decide) _ _ hz2
  have hrestL : getAttr ((dataList (anonymizeTree now t s).1).getD i defaultData).2
      "_LastName" = getAttr w.2 "_LastName" :=
    chainRel_frame now "_LastName" _ (by decide) _ _ hz2
  have hrestU : getAttr ((dataList (anonymizeTree now t s).1).getD i defaultData).2
      "_UnparsedName" = getAttr w.2 "_UnparsedName" :=
    chainRel_frame now "_UnparsedName" _ (by decide) _ _ hz2
  refine ⟨f, m, l, hfm, hmm, hlm, ?_, ?_, ?_, ?_⟩
  · rw [hrestU, hw]
    exact hgU hU
  · rw [hrestF, hw]
    exact hgF
  · intro hM
    rw [hrestM, hw]
    exact hgM hM
  · intro hL
    rw [hrestL, hw]
    exact hgL hL

theorem claim3_name_linkage_witness :
    (0 < (dataList ⟨"BORROWER",
        [("_FirstName", "Ann"), ("_UnparsedName", "Ann X Lee")], []⟩).length) ∧
    hasAttr ((dataList ⟨"BORROWER",
        [("_FirstName", "Ann"), ("_UnparsedName", "Ann X Lee")], []⟩).getD 0
      defaultData).2 "_FirstName" = true ∧
    hasAttr ((dataList ⟨"BORROWER",
        [("_FirstName", "Ann"), ("_UnparsedName", "Ann X Lee")], []⟩).getD 0
      defaultData).2 "_UnparsedName" = true ∧
    (∃ f m l, f ∈ firstNames ∧ m ∈ middleInitials ∧ l ∈ lastNames ∧
      getAttr ((dataList (anonymizeTree 20738 ⟨"BORROWER",
          [("_FirstName", "Ann"), ("_UnparsedName", "Ann X Lee")], []⟩
          ⟨fun _ => 0, 0⟩).1).getD 0 defaultData).2 "_UnparsedName" =
        some (f ++ " " ++ m ++ " " ++ l) ∧
      getAttr ((dataList (anonymizeTree 20738 ⟨"BORROWER",
          [("_FirstName", "Ann"), ("_UnparsedName", "Ann X Lee")], []⟩
          ⟨fun _ => 0, 0⟩).1).getD 0 defaultData).2 "_FirstName" = some f ∧
      (hasAttr ((dataList ⟨"BORROWER",
          [("_FirstName", "Ann"), ("_UnparsedName", "Ann X Lee")], []⟩).getD 0
        defaultData).2 "_MiddleName" = true →
        getAttr ((dataList (anonymizeTree 20738 ⟨"BORROWER",
            [("_FirstName", "Ann"), ("_UnparsedName", "Ann X Lee")], []⟩
            ⟨fun _ => 0, 0⟩).1).getD 0 defaultData).2 "_MiddleName" = some m) ∧
      (hasAttr ((dataList ⟨"BORROWER",
          [("_FirstName", "Ann"), ("_UnparsedName", "Ann X Lee")], []⟩).getD 0
        defaultData).2 "_LastName" = true →
        getAttr ((dataList (anonymizeTree 20738 ⟨"BORROWER",
            [("_FirstName", "Ann"), ("_UnparsedName", "Ann X Lee")], []⟩
            ⟨fun _ => 0, 0⟩).1).getD 0 defaultData).2 "_LastName" = some l)) :=
  ⟨by decide, by decide, by decide,
    claim3_name_linkage 20738 ⟨"BORROWER",
      [("_FirstName", "Ann"), ("_UnparsedName", "Ann X Lee")], []⟩
      ⟨fun _ => 0, 0⟩ 0 (by decide) (by decide) (by decide)⟩

/-- C7: on a node with `_SSN`, the full pass sequence sets `_SSN` to the
concatenation of the numerals of three independently drawn blocks from
[100, 999], [10, 99] and [1000, 9999]; the result is a 9-digit numeric
string, with no further structural validation. -/
theorem claim7_ssn (now : Nat) (t : XNode) (s : RState) (i : Nat)
    (hi : i < (dataList t).length)
    (hS : hasAttr ((dataList t).getD i defaultData).2 "_SSN" = true) :
    ∃ x y z, 100 ≤ x ∧ x ≤ 999 ∧ 10 ≤ y ∧ y ≤ 99 ∧ 1000 ≤ z ∧ z ≤ 9999 ∧
      getAttr ((dataList (anonymizeTree now t s).1).getD i defaultData).2 "_SSN" =
        some (decimalStr x ++ decimalStr y ++ decimalStr z) ∧
      (decimalStr x ++ decimalStr y ++ decimalStr z).length = 9 ∧
      isDigitString (decimalStr x ++ decimalStr y ++ decimalStr z) = true := by
  have h := anonymizeTree_node now t s i hi
  rw [show passOrder = [Pass.names] ++ ([Pass.ssn] ++
    [Pass.dob, Pass.addresses, Pass.creditors, Pass.contact, Pass.accounts])
    from rfl] at h
  obtain ⟨z1, hz1, hz2⟩ := (chainRel_append now _ _ _ _).mp h
  obtain ⟨z2, hz3, hz4⟩ := (chainRel_append now _ _ _ _).mp hz2
  obtain ⟨w1, ⟨htag1, s1, hw1⟩, hwz1⟩ := hz1
  have hwz1 : w1 = z1 := hwz1
  subst hwz1
  obtain ⟨w2, ⟨htag2, s2, hw2⟩, hwz2⟩ := hz3
  have hwz2 : w2 = z2 := hwz2
  subst hwz2
  have hS1 : hasAttr w1.2 "_SSN" = true := by
    rw [hw1, hasAttr_congr (stepOf_keys now Pass.names _ _ s1) "_SSN"]
    exact hS
  obtain ⟨x, y, z, hx1, hx2, hy1, hy2, hz1b, hz2b, hget⟩ :=
    anonSsnStep_char w1.1 w1.2 s2 hS1
  have hrest : getAttr ((dataList (anonymizeTree now t s).1).getD i defaultData).2 "_SSN" =
      getAttr w2.2 "_SSN" :=
    chainRel_frame now "_SSN" _ (by decide) _ _ hz4
  refine ⟨x, y, z, hx1, hx2, hy1, hy2, hz1b, hz2b, ?_, ?_, ?_⟩
  · rw [hrest, hw2]
    exact hget
  · rw [String.length_append, String.length_append,
      decimalStr_length_of_range (k := 2) (by omega) (by omega),
      decimalStr_length_of_range (k := 1) (by omega) (by omega),
      decimalStr_length_of_range (k := 3) (by omega) (by omega)]
  · exact isDigitString_append (isDigitString_append (isDigitString_decimalStr x)
      (isDigitString_decimalStr y)) (isDigitString_decimalStr z)

theorem claim7_ssn_witness :
    (0 < (dataList ⟨"BORROWER", [("_SSN", "123456789")], []⟩).length) ∧
    hasAttr ((dataList ⟨"BORROWER", [("_SSN", "123456789")], []⟩).getD 0
      defaultData).2 "_SSN" = true ∧
    (∃ x y z, 100 ≤ x ∧ x ≤ 999 ∧ 10 ≤ y ∧ y ≤ 99 ∧ 1000 ≤ z ∧ z ≤ 9999 ∧
      getAttr ((dataList (anonymizeTree 20738 ⟨"BORROWER", [("_SSN", "123456789")], []⟩
          ⟨fun _ => 0, 0⟩).1).getD 0 defaultData).2 "_SSN" =
        some (decimalStr x ++ decimalStr y ++ decimalStr z) ∧
      (decimalStr x ++ decimalStr y ++ decimalStr z).length = 9 ∧
      isDigitString (decimalStr x ++ decimalStr y ++ decimalStr z) = true) :=
  ⟨by decide, by decide,
    claim7_ssn 20738 ⟨"BORROWER", [("_SSN", "123456789")], []⟩
      ⟨fun _ => 0, 0⟩ 0 (by decide) (by decide)⟩

/-- C5: on a node with `_BirthDate`, the full pass sequence sets it to
the date `years * 365 + extra` days before the current day with `years`
drawn from [30, 50] and `extra` from [0, 365], formatted `YYYY-MM-DD`
(four digit year, two digit month and day, dash-separated), and strictly
in the past.  The day-ordinal bounds on `now` say the current date lies
between 1970 and year 9999, which Python's `datetime.now()` guarantees. -/
theorem claim5_birthdate (now : Nat) (t : XNode) (s : RState) (i : Nat)
    (hi : i < (dataList t).length)
    (hB : hasAttr ((dataList t).getD i defaultData).2 "_BirthDate" = true)
    (hlo : 18615 ≤ now) (hhi : now ≤ 2932896) :
    ∃ y e, 30 ≤ y ∧ y ≤ 50 ∧ e ≤ 365 ∧
      getAttr ((dataList (anonymizeTree now t s).1).getD i defaultData).2 "_BirthDate" =
        some (formatDate (now - (y * 365 + e))) ∧
      now - (y * 365 + e) < now ∧
      ∃ ys ms ds, formatDate (now - (y * 365 + e)) = ys ++ "-" ++ ms ++ "-" ++ ds ∧
        ys.length = 4 ∧ ms.length = 2 ∧ ds.length = 2 ∧
        isDigitString ys = true ∧ isDigitString ms = true ∧ isDigitString ds = true := by
  have h := anonymizeTree_node now t s i hi
  rw [show passOrder = [Pass.names, Pass.ssn] ++ ([Pass.dob] ++
    [Pass.addresses, Pass.creditors, Pass.contact, Pass.accounts]) from rfl] at h
  obtain ⟨z1, hz1, hz2⟩ := (chainRel_append now _ _ _ _).mp h
  obtain ⟨z2, hz3, hz4⟩ := (chainRel_append now _ _ _ _).mp hz2
  obtain ⟨w2, ⟨htag2, s2, hw2⟩, hwz2⟩ := hz3
  have hwz2 : w2 = z2 := hwz2
  subst hwz2
  have hB1 : hasAttr z1.2 "_BirthDate" = true := by
    rw [hasAttr_congr (chainRel_keys now _ _ _ hz1).2 "_BirthDate"]
    exact hB
  obtain ⟨y, e, hy1, hy2, he, hget⟩ := anonDobStep_birth now z1.1 z1.2 s2 hB1
  have hrest : getAttr ((dataList (anonymizeTree now t s).1).getD i defaultData).2
      "_BirthDate" = getAttr w2.2 "_BirthDate" :=
    chainRel_frame now "_BirthDate" _ (by decide) _ _ hz4
  have hyear1 : 1000 ≤ cfdYear (now - (y * 365 + e)) := cfdYear_lower _
  have hyear2 : cfdYear (now - (y * 365 + e)) ≤ 9999 := cfdYear_upper (by omega)
  obtain ⟨ys, ms, ds, hfmt, hy4, hm2, hd2, hyd, hmd, hdd⟩ :=
    formatDate_shape (now - (y * 365 + e)) hyear1 hyear2
  refine ⟨y, e, hy1, hy2, he, ?_, by omega, ys, ms, ds, hfmt, hy4, hm2, hd2, hyd, hmd, hdd⟩
  rw [hrest, hw2]
  exact hget

theorem claim5_birthdate_witness :
    (0 < (dataList ⟨"BORROWER", [("_BirthDate", "1980-05-02")], []⟩).length) ∧
    hasAttr ((dataList ⟨"BORROWER", [("_BirthDate", "1980-05-02")], []⟩).getD 0
      defaultData).2 "_BirthDate" = true ∧
    18615 ≤ 20738 ∧ 20738 ≤ 2932896 ∧
    (∃ y e, 30 ≤ y ∧ y ≤ 50 ∧ e ≤ 365 ∧
      getAttr ((dataList (anonymizeTree 20738 ⟨"BORROWER", [("_BirthDate", "1980-05-02")], []⟩
          ⟨fun _ => 0, 0⟩).1).getD 0 defaultData).2 "_BirthDate" =
        some (formatDate (20738 - (y * 365 + e))) ∧
      20738 - (y * 365 + e) < 20738 ∧
      ∃ ys ms ds, formatDate (20738 - (y * 365 + e)) = ys ++ "-" ++ ms ++ "-" ++ ds ∧
        ys.length = 4 ∧ ms.length = 2 ∧ ds.length = 2 ∧
        isDigitString ys = true ∧ isDigitString ms = true ∧ isDigitString ds = true) :=
  ⟨by decide, by decide, by decide, by decide,
    claim5_birthdate 20738 ⟨"BORROWER", [("_BirthDate", "1980-05-02")], []⟩
      ⟨fun _ => 0, 0⟩ 0 (by decide) (by decide) (by decide) (by decide)⟩

/-- C6: on a node with both `_Value` and `_Type`, if `_Type` is `Phone`,
`Email` or `Fax`, the full pass sequence sets `_Value` to `"555"`
followed by seven random digits (the email/fax branch produces the same
digit-string shape); for any other `_Type` value, `_Value` keeps its
original value. -/
theorem claim6_contact (now : Nat) (t : XNode) (s : RState) (i : Nat)
    (hi : i < (dataList t).length)
    (hV : hasAttr ((dataList t).getD i defaultData).2 "_Value" = true)
    (hT : hasAttr ((dataList t).getD i defaultData).2 "_Type" = true) :
    ((getAttr ((dataList t).getD i defaultData).2 "_Type" = some "Phone" ∨
      getAttr ((dataList t).getD i defaultData).2 "_Type" = some "Email" ∨
      getAttr ((dataList t).getD i defaultData).2 "_Type" = some "Fax") →
      ∃ n, 1000000 ≤ n ∧ n ≤ 9999999 ∧
        getAttr ((dataList (anonymizeTree now t s).1).getD i defaultData).2 "_Value" =
          some ("555" ++ decimalStr n) ∧
        (decimalStr n).length = 7 ∧ isDigitString (decimalStr n) = true) ∧
    (∀ v, getAttr ((dataList t).getD i defaultData).2 "_Type" = some v →
      v ≠ "Phone" → v ≠ "Email" → v ≠ "Fax" →
      getAttr ((dataList (anonymizeTree now t s).1).getD i defaultData).2 "_Value" =
        getAttr ((dataList t).getD i defaultData).2 "_Value") := by
  have h := anonymizeTree_node now t s i hi
  rw [show passOrder = [Pass.names, Pass.ssn, Pass.dob, Pass.addresses, Pass.creditors] ++
    ([Pass.contact] ++ [Pass.accounts]) from rfl] at h
  obtain ⟨z1, hz1, hz2⟩ := (chainRel_append now _ _ _ _).mp h
  obtain ⟨z2, hz3, hz4⟩ := (chainRel_append now _ _ _ _).mp hz2
  obtain ⟨w2, ⟨htag2, s2, hw2⟩, hwz2⟩ := hz3
  have hwz2 : w2 = z2 := hwz2
  subst hwz2
  have hVpre : getAttr z1.2 "_Value" = getAttr ((dataList t).getD i defaultData).2 "_Value" :=
    chainRel_frame now "_Value" _ (by decide) _ _ hz1
  have hTpre : getAttr z1.2 "_Type" = getAttr ((dataList t).getD i defaultData).2 "_Type" :=
    chainRel_frame now "_Type" _ (by decide) _ _ hz1
  have hV1 : hasAttr z1.2 "_Value" = true := by
    rw [hasAttr_congr (chainRel_keys now _ _ _ hz1).2 "_Value"]
    exact hV
  have hT1 : hasAttr z1.2 "_Type" = true := by
    rw [hasAttr_congr (chainRel_keys now _ _ _ hz1).2 "_Type"]
    exact hT
  have hpost : getAttr ((dataList (anonymizeTree now t s).1).getD i defaultData).2 "_Value" =
      getAttr w2.2 "_Value" :=
    chainRel_frame now "_Value" _ (by decide) _ _ hz4
  constructor
  · intro hTy
    have hTy1 : getAttr z1.2 "_Type" = some "Phone" ∨ getAttr z1.2 "_Type" = some "Email" ∨
        getAttr z1.2 "_Type" = some "Fax" := by
      rw [hTpre]
      exact hTy
    obtain ⟨n, hn1, hn2, hget⟩ := anonContactStep_typed z1.1 z1.2 s2 hV1 hT1 hTy1
    refine ⟨n, hn1, hn2, ?_, decimalStr_length_of_range (k := 6) (by omega) (by omega),
      isDigitString_decimalStr n⟩
    rw [hpost, hw2]
    exact hget
  · intro v hv hvP hvE hvF
    have hid : anonContactStep z1.1 z1.2 s2 = (z1.2, s2) := by
      refine anonContactStep_id_of_other_type z1.1 z1.2 s2 ?_ ?_ ?_ <;>
        rw [hTpre, hv] <;> intro hh
      · exact hvP (Option.some.inj hh)
      · exact hvE (Option.some.inj hh)
      · exact hvF (Option.some.inj hh)
    rw [hpost, hw2]
    show getAttr (anonContactStep z1.1 z1.2 s2).1 "_Value" = _
    rw [hid]
    exact hVpre

theorem claim6_contact_witness :
    (0 < (dataList ⟨"CONTACT_DETAIL",
        [("_Value", "3105551212"), ("_Type", "Phone")], []⟩).length) ∧
    hasAttr ((dataList ⟨"CONTACT_DETAIL",
        [("_Value", "3105551212"), ("_Type", "Phone")], []⟩).getD 0
      defaultData).2 "_Value" = true ∧
    hasAttr ((dataList ⟨"CONTACT_DETAIL",
        [("_Value", "3105551212"), ("_Type", "Phone")], []⟩).getD 0
      defaultData).2 "_Type" = true ∧
    (((getAttr ((dataList ⟨"CONTACT_DETAIL",
        [("_Value", "3105551212"), ("_Type", "Phone")], []⟩).getD 0
        defaultData).2 "_Type" = some "Phone" ∨
      getAttr ((dataList ⟨"CONTACT_DETAIL",
        [("_Value", "3105551212"), ("_Type", "Phone")], []⟩).getD 0
        defaultData).2 "_Type" = some "Email" ∨
      getAttr ((dataList ⟨"CONTACT_DETAIL",
        [("_Value", "3105551212"), ("_Type", "Phone")], []⟩).getD 0
        defaultData).2 "_Type" = some "Fax") →
      ∃ n, 1000000 ≤ n ∧ n ≤ 9999999 ∧
        getAttr ((dataList (anonymizeTree 20738 ⟨"CONTACT_DETAIL",
            [("_Value", "3105551212"), ("_Type", "Phone")], []⟩
            ⟨fun _ => 0, 0⟩).1).getD 0 defaultData).2 "_Value" =
          some ("555" ++ decimalStr n) ∧
        (decimalStr n).length = 7 ∧ isDigitString (decimalStr n) = true) ∧
    (∀ v, getAttr ((dataList ⟨"CONTACT_DETAIL",
        [("_Value", "3105551212"), ("_Type", "Phone")], []⟩).getD 0
        defaultData).2 "_Type" = some v →
      v ≠ "Phone" → v ≠ "Email" → v ≠ "Fax" →
      getAttr ((dataList (anonymizeTree 20738 ⟨"CONTACT_DETAIL",
          [("_Value", "3105551212"), ("_Type", "Phone")], []⟩
          ⟨fun _ => 0, 0⟩).1).getD 0 defaultData).2 "_Value" =
        getAttr ((dataList ⟨"CONTACT_DETAIL",
          [("_Value", "3105551212"), ("_Type", "Phone")], []⟩).getD 0
          defaultData).2 "_Value")) :=
  ⟨by decide, by decide, by decide,
    claim6_contact 20738 ⟨"CONTACT_DETAIL",
      [("_Value", "3105551212"), ("_Type", "Phone")], []⟩
      ⟨fun _ => 0, 0⟩ 0 (by decide) (by decide) (by decide)⟩

/-- C9: a `_Name` attribute on a node whose tag is neither `_CREDITOR`
nor `REQUESTING_PARTY` keeps its original value through the full pass
sequence. -/
theorem claim9_name_untouched (now : Nat) (t : XNode) (s : RState) (i : Nat)
    (hi : i < (dataList t).length)
    (h1 : ((dataList t).getD i defaultData).1 ≠ "_CREDITOR")
    (h2 : ((dataList t).getD i defaultData).1 ≠ "REQUESTING_PARTY") :
    getAttr ((dataList (anonymizeTree now t s).1).getD i defaultData).2 "_Name" =
      getAttr ((dataList t).getD i defaultData).2 "_Name" := by
  have h := anonymizeTree_node now t s i hi
  rw [show passOrder = [Pass.names, Pass.ssn, Pass.dob, Pass.addresses] ++
    ([Pass.creditors] ++ [Pass.contact, Pass.accounts]) from rfl] at h
  obtain ⟨z1, hz1, hz2⟩ := (chainRel_append now _ _ _ _).mp h
  obtain ⟨z2, hz3, hz4⟩ := (chainRel_append now _ _ _ _).mp hz2
  obtain ⟨w2, ⟨htag2, s2, hw2⟩, hwz2⟩ := hz3
  have hwz2 : w2 = z2 := hwz2
  subst hwz2
  have hpre : getAttr z1.2 "_Name" = getAttr ((dataList t).getD i defaultData).2 "_Name" :=
    chainRel_frame now "_Name" _ (by decide) _ _ hz1
  have hza : z1.1 = ((dataList t).getD i defaultData).1 := (chainRel_keys now _ _ _ hz1).1
  have hc1 : (decide (z1.1 = "_CREDITOR") && hasAttr z1.2 "_Name") = false := by
    rw [decide_eq_false (by rw [hza]; exact h1), Bool.false_and]
  have hc2 : (decide (z1.1 = "REQUESTING_PARTY") && hasAttr z1.2 "_Name") = false := by
    rw [decide_eq_false (by rw [hza]; exact h2), Bool.false_and]
  have hid := anonCreditorsStep_id z1.1 z1.2 s2 hc1 hc2
  have hpost : getAttr ((dataList (anonymizeTree now t s).1).getD i defaultData).2 "_Name" =
      getAttr w2.2 "_Name" :=
    chainRel_frame now "_Name" _ (by decide) _ _ hz4
  rw [hpost, hw2]
  show getAttr (anonCreditorsStep z1.1 z1.2 s2).1 "_Name" = _
  rw [hid]
  exact hpre

theorem claim9_name_untouched_witness :
    (0 < (dataList ⟨"BORROWER", [("_Name", "Ann Lee")], []⟩).length) ∧
    ((dataList ⟨"BORROWER", [("_Name", "Ann Lee")], []⟩).getD 0 defaultData).1 ≠
      "_CREDITOR" ∧
    ((dataList ⟨"BORROWER", [("_Name", "Ann Lee")], []⟩).getD 0 defaultData).1 ≠
      "REQUESTING_PARTY" ∧
    getAttr ((dataList (anonymizeTree 20738 ⟨"BORROWER", [("_Name", "Ann Lee")], []⟩
        ⟨fun _ => 0, 0⟩).1).getD 0 defaultData).2 "_Name" =
      getAttr ((dataList ⟨"BORROWER", [("_Name", "Ann Lee")], []⟩).getD 0
        defaultData).2 "_Name" :=
  ⟨by decide, by decide, by decide,
    claim9_name_untouched 20738 ⟨"BORROWER", [("_Name", "Ann Lee")], []⟩
      ⟨fun _ => 0, 0⟩ 0 (by decide) (by decide) (by decide)⟩

/-- C10: on a node carrying `_UnparsedName` or `_MiddleName` but
neither `_FirstName` nor `_LastName`, the name pass leaves the node's
data entirely unchanged (its trigger requires `_FirstName` or
`_LastName`), and hence the full pass sequence leaves `_UnparsedName`
and `_MiddleName` at their original values. -/
theorem claim10_names_trigger (now : Nat) (t : XNode) (s : RState) (i : Nat)
    (hi : i < (dataList t).length)
    (hUM : hasAttr ((dataList t).getD i defaultData).2 "_UnparsedName" = true ∨
      hasAttr ((dataList t).getD i defaultData).2 "_MiddleName" = true)
    (hnoF : hasAttr ((dataList t).getD i defaultData).2 "_FirstName" = false)
    (hnoL : hasAttr ((dataList t).getD i defaultData).2 "_LastName" = false) :
    (dataList (applyPass now Pass.names t s).1).getD i defaultData =
      (dataList t).getD i defaultData ∧
    getAttr ((dataList (anonymizeTree now t s).1).getD i defaultData).2 "_UnparsedName" =
      getAttr ((dataList t).getD i defaultData).2 "_UnparsedName" ∧
    getAttr ((dataList (anonymizeTree now t s).1).getD i defaultData).2 "_MiddleName" =
      getAttr ((dataList t).getD i defaultData).2 "_MiddleName" := by
  constructor
  · have hrel := mapTree_dataRel (stepOf now Pass.names)
      (fun x y => (hasAttr x.2 "_FirstName" = false ∧ hasAttr x.2 "_LastName" = false) →
        y = x)
      (fun tg a s0 hcond => by
        show (tg, (anonNamesStep tg a s0).1) = (tg, a)
        rw [anonNamesStep_id tg a s0 hcond.1 hcond.2]) t s
    exact forall2_getD hrel i hi defaultData ⟨hnoF, hnoL⟩
  · have h := anonymizeTree_node now t s i hi
    rw [show passOrder = [Pass.names] ++
      [Pass.ssn, Pass.dob, Pass.addresses, Pass.creditors, Pass.contact, Pass.accounts]
      from rfl] at h
    obtain ⟨z, hz1, hz2⟩ := (chainRel_append now _ _ _ _).mp h
    obtain ⟨w, ⟨htag, s0, hw⟩, hwz⟩ := hz1
    have hwz : w = z := hwz
    subst hwz
    have hstep : anonNamesStep ((dataList t).getD i defaultData).1
        ((dataList t).getD i defaultData).2 s0 =
        (((dataList t).getD i defaultData).2, s0) :=
      anonNamesStep_id ((dataList t).getD i defaultData).1
        ((dataList t).getD i defaultData).2 s0 hnoF hnoL
    have hwx : w = (dataList t).getD i defaultData := by
      have hsnd : w.2 = ((dataList t).getD i defaultData).2 := by
        rw [hw]
        show (anonNamesStep ((dataList t).getD i defaultData).1
          ((dataList t).getD i defaultData).2 s0).1 = _
        rw [hstep]
      exact Prod.ext htag hsnd
    rw [hwx] at hz2
    exact ⟨chainRel_frame now "_UnparsedName" _ (by decide) _ _ hz2,
      chainRel_frame now "_MiddleName" _ (by decide) _ _ hz2⟩

theorem claim10_names_trigger_witness :
    (0 < (dataList ⟨"X", [("_UnparsedName", "Ann X Lee"), ("_MiddleName", "X")], []⟩).length) ∧
    (hasAttr ((dataList ⟨"X", [("_UnparsedName", "Ann X Lee"), ("_MiddleName", "X")],
      []⟩).getD 0 defaultData).2 "_UnparsedName" = true ∨
      hasAttr ((dataList ⟨"X", [("_UnparsedName", "Ann X Lee"), ("_MiddleName", "X")],
        []⟩).getD 0 defaultData).2 "_MiddleName" = true) ∧
    hasAttr ((dataList ⟨"X", [("_UnparsedName", "Ann X Lee"), ("_MiddleName", "X")],
      []⟩).getD 0 defaultData).2 "_FirstName" = false ∧
    hasAttr ((dataList ⟨"X", [("_UnparsedName", "Ann X Lee"), ("_MiddleName", "X")],
      []⟩).getD 0 defaultData).2 "_LastName" = false ∧
    ((dataList (applyPass 20738 Pass.names
        ⟨"X", [("_UnparsedName", "Ann X Lee"), ("_MiddleName", "X")], []⟩
        ⟨fun _ => 0, 0⟩).1).getD 0 defaultData =
      (dataList ⟨"X", [("_UnparsedName", "Ann X Lee"), ("_MiddleName", "X")],
        []⟩).getD 0 defaultData ∧
    getAttr ((dataList (anonymizeTree 20738
        ⟨"X", [("_UnparsedName", "Ann X Lee"), ("_MiddleName", "X")], []⟩
        ⟨fun _ => 0, 0⟩).1).getD 0 defaultData).2 "_UnparsedName" =
      getAttr ((dataList ⟨"X", [("_UnparsedName", "Ann X Lee"), ("_MiddleName", "X")],
        []⟩).getD 0 defaultData).2 "_UnparsedName" ∧
    getAttr ((dataList (anonymizeTree 20738
        ⟨"X", [("_UnparsedName", "Ann X Lee"), ("_MiddleName", "X")], []⟩
        ⟨fun _ => 0, 0⟩).1).getD 0 defaultData).2 "_MiddleName" =
      getAttr ((dataList ⟨"X", [("_UnparsedName", "Ann X Lee"), ("_MiddleName", "X")],
        []⟩).getD 0 defaultData).2 "_MiddleName") :=
  ⟨by decide, by decide, by decide, by decide,
    claim10_names_trigger 20738
      ⟨"X", [("_UnparsedName", "Ann X Lee"), ("_MiddleName", "X")], []⟩
      ⟨fun _ => 0, 0⟩ 0 (by decide) (by decide) (by decide) (by decide)⟩

/-- C8: the passes are order-insensitive.  The static write sets of
distinct passes are pairwise disjoint; each pass's per-node write list
stays inside its static write set; a step never changes an attribute
outside its per-node write list; and for any permutation of the
implemented pass order and any random streams, the (node, attribute)
pairs replaced over the run are the same (up to order) as in the
implemented order. -/
theorem claim8_order_insensitive (now : Nat) (ps : List Pass) (hp : ps.Perm passOrder)
    (t : XNode) (s s2 : RState) :
    (∀ p q : Pass, p ≠ q → ∀ k ∈ writeAttrsOf p, k ∉ writeAttrsOf q) ∧
    (∀ (p : Pass) (tg : String) (a : Attrs), ∀ k ∈ writesOf p tg a, k ∈ writeAttrsOf p) ∧
    (∀ (p : Pass) (tg : String) (a : Attrs) (s0 : RState) (k : String),
      k ∉ writesOf p tg a → getAttr ((stepOf now p) tg a s0).1 k = getAttr a k) ∧
    (writtenPairs now ps t s).Perm (writtenPairs now passOrder t s2) := by
  refine ⟨writeAttrs_disjoint, writesOf_subset,
    fun p tg a s0 k hk => stepOf_writes_frame now p tg a s0 k hk, ?_⟩
  rw [writtenPairs_eq now ps t s, writtenPairs_eq now passOrder t s2]
  exact (hp.map (fun p => nodeWrites p t)).flatten

theorem claim8_order_insensitive_witness :
    ([Pass.accounts, Pass.contact, Pass.creditors, Pass.addresses, Pass.dob, Pass.ssn,
      Pass.names].Perm passOrder) ∧
    ((∀ p q : Pass, p ≠ q → ∀ k ∈ writeAttrsOf p, k ∉ writeAttrsOf q) ∧
    (∀ (p : Pass) (tg : String) (a : Attrs), ∀ k ∈ writesOf p tg a, k ∈ writeAttrsOf p) ∧
    (∀ (p : Pass) (tg : String) (a : Attrs) (s0 : RState) (k : String),
      k ∉ writesOf p tg a → getAttr ((stepOf 20738 p) tg a s0).1 k = getAttr a k) ∧
    (writtenPairs 20738
        [Pass.accounts, Pass.contact, Pass.creditors, Pass.addresses, Pass.dob, Pass.ssn,
          Pass.names]
        ⟨"LOAN", [("_FirstName", "Ann"), ("_SSN", "123456789")], []⟩
        ⟨fun _ => 0, 0⟩).Perm
      (writtenPairs 20738 passOrder
        ⟨"LOAN", [("_FirstName", "Ann"), ("_SSN", "123456789")], []⟩
        ⟨fun _ => 1, 0⟩)) :=
  ⟨by decide,
    claim8_order_insensitive 20738
      [Pass.accounts, Pass.contact, Pass.creditors, Pass.addresses, Pass.dob, Pass.ssn,
        Pass.names]
      (by decide)
      ⟨"LOAN", [("_FirstName", "Ann"), ("_SSN", "123456789")], []⟩
      ⟨fun _ => 0, 0⟩ ⟨fun _ => 1, 0⟩⟩
